import Mathlib

/-!
Verification development for the eva-memory core engine
(src/scripts/memory.py).  The Python source is shallowly embedded:

* strings are modelled as ASCII Lean strings / char lists;
* timestamps are modelled as integers measured in days, so that the
  Cypher fragment duration(days) becomes integer addition and both the
  ISO-string comparison in cmd_maintain and the datetime comparison of
  the active-memory predicate become integer comparison;
* floats (similarity scores, confidence) are modelled as rationals;
* network and disk effects (Neo4j driver, ChromaDB, Ollama, markdown
  files) are modelled by explicit environment records carrying the
  outcome of each external call, and every function additionally
  returns the effects it performed (queries issued, records appended);
* Python dicts holding JSON arguments become structures or association
  lists; a JSON value type with a faithful json.dumps rendering is used
  where the source serializes a dict.
-/

namespace EvaMemory

/-! ### Character and string helpers (ASCII model of the Python str ops) -/

/-- Model of the ASCII fragment of Python str.lower on one character. -/
def toLowerCh (c : Char) : Char :=
  if 65 ≤ c.toNat ∧ c.toNat ≤ 90 then Char.ofNat (c.toNat + 32) else c

/-- Membership in the regex class [a-z]. -/
def isLowerAZ (c : Char) : Bool := 97 ≤ c.toNat && c.toNat ≤ 122

/-- Membership in the regex class [A-Z]. -/
def isUpperAZ (c : Char) : Bool := 65 ≤ c.toNat && c.toNat ≤ 90

/-- Membership in the regex class \s (ASCII whitespace, as in Python). -/
def isSpaceChar (c : Char) : Bool :=
  c = ' ' || c = '\t' || c = '\n' || c = '\x0d' || c = '\x0b' || c = '\x0c'

/-- Membership in the regex class \w (ASCII word character). -/
def isWordChar (c : Char) : Bool :=
  isLowerAZ c || isUpperAZ c || (48 ≤ c.toNat && c.toNat ≤ 57) || c = '_'

/-- Model of Python str.lower on a character list. -/
def lowerL (l : List Char) : List Char := l.map toLowerCh

/-- Model of Python str.strip() on a character list. -/
def pyStripL (l : List Char) : List Char :=
  ((l.dropWhile isSpaceChar).reverse.dropWhile isSpaceChar).reverse

/-- Structural worker of splitWs.  Every scanner in this file recurses
on a fuel argument instantiated with the input length, which every
recursive call keeps at or above the length of its remaining input, so
the zero-fuel row is unreachable; this keeps the definitions reducible
by the kernel. -/
def splitWsF : Nat → List Char → List (List Char)
  | 0, _ => []
  | _, [] => []
  | fuel + 1, c :: rest =>
    if isSpaceChar c then splitWsF fuel rest
    else
      let run := rest.takeWhile (fun x => ¬ isSpaceChar x)
      (c :: run) :: splitWsF fuel (rest.drop run.length)

/-- Model of Python str.split() (split on whitespace runs, no empties). -/
def splitWs (l : List Char) : List (List Char) := splitWsF l.length l

/-- Model of Python str.strip() on strings. -/
def pyStrip (s : String) : String := String.mk (pyStripL s.toList)

/-! ### The stop-word list (memory.py lines 99-114, a Python set) -/

def STOP_WORDS : List String := [
  "the", "a", "an", "is", "are", "was", "were", "be", "been", "being",
  "have", "has", "had", "do", "does", "did", "will", "would", "could",
  "should", "may", "might", "must", "shall", "can", "need", "dare",
  "ought", "used", "to", "of", "in", "for", "on", "with", "at", "by",
  "from", "as", "into", "through", "during", "before", "after", "above",
  "below", "between", "under", "again", "further", "then", "once", "here",
  "there", "when", "where", "why", "how", "all", "each", "few", "more",
  "most", "other", "some", "such", "no", "nor", "not", "only", "own",
  "same", "so", "than", "too", "very", "just", "also", "now", "and",
  "but", "if", "or", "because", "until", "while", "this", "that", "these",
  "those", "it", "its", "i", "me", "my", "we", "our", "you", "your",
  "he", "him", "his", "she", "her", "they", "them", "their", "what",
  "which", "who", "whom", "get", "got", "about", "like", "want", "know",
  "think", "make", "take", "see", "come", "go", "use", "using", "used"]

/-- Stop-word list as character lists, for membership tests during mining. -/
def stopWordsL : List (List Char) := STOP_WORDS.map String.toList

/-- Membership in the stop-word set. -/
def isStop (l : List Char) : Bool := stopWordsL.contains l

/-! ### A JSON value type with the json.dumps rendering used by the source -/

inductive Json where
  | str (s : String)
  | num (n : Int)
  | bool (b : Bool)
  | null
  | arr (xs : List Json)
  | obj (kvs : List (String × Json))

/-- Escaping of one character inside a JSON string literal. -/
def jescChar (c : Char) : List Char :=
  if c = '"' then ['\\', '"'] else if c = '\\' then ['\\', '\\'] else [c]

/-- Rendering of a JSON string literal. -/
def jdumpStr (s : String) : List Char :=
  '"' :: (s.toList.flatMap jescChar) ++ ['"']

/-- Interleave a separator between rendered items. -/
def jjoin (sep : List Char) : List (List Char) → List Char
  | [] => []
  | [x] => x
  | x :: y :: rest => x ++ sep ++ jjoin sep (y :: rest)

mutual

/-- Model of Python json.dumps with the default separators. -/
def jdumpVal : Json → List Char
  | .str s => jdumpStr s
  | .num n => (toString n).toList
  | .bool b => if b then "true".toList else "false".toList
  | .null => "null".toList
  | .arr xs => '[' :: jjoin (", ".toList) (jdumpList xs) ++ [']']
  | .obj kvs => '\x7b' :: jjoin (", ".toList) (jdumpObj kvs) ++ ['\x7d']

def jdumpList : List Json → List (List Char)
  | [] => []
  | x :: xs => jdumpVal x :: jdumpList xs

def jdumpObj : List (String × Json) → List (List Char)
  | [] => []
  | (k, v) :: kvs => (jdumpStr k ++ ": ".toList ++ jdumpVal v) :: jdumpObj kvs

end

/-- Model of json.dumps applied to a whole dict. -/
def jdump (kvs : List (String × Json)) : List Char := jdumpVal (.obj kvs)

/-- Content handed to the extractor: a plain string or a JSON dict,
mirroring the isinstance(content, dict) branch of the source. -/
inductive Content where
  | plain (s : String)
  | struct (kvs : List (String × Json))

/-- Lookup of a key in the dict model (dict keys are unique; first hit). -/
def jlookup (kvs : List (String × Json)) (k : String) : Option Json :=
  (kvs.find? (fun p => p.1 == k)).map (fun p => p.2)

/-! ### Regex scanners used by extract_entities (memory.py lines 147-169)

Each scanner is a faithful executable model of one re.findall call:
left-to-right scan, non-overlapping matches, greedy repetition with the
backtracking behaviour of the concrete pattern worked out by hand. -/

/-- Structural worker of the hashtag scanner. -/
def findHashtagsF : Nat → List Char → List (List Char)
  | 0, _ => []
  | _, [] => []
  | fuel + 1, c :: rest =>
    if c = '#' then
      let w := rest.takeWhile isWordChar
      if w.isEmpty then findHashtagsF fuel rest
      else w :: findHashtagsF fuel (rest.drop w.length)
    else findHashtagsF fuel rest

/-- Scanner for the hashtag pattern matching a hash sign followed by one
or more word characters. -/
def findHashtags (l : List Char) : List (List Char) := findHashtagsF l.length l

/-- Structural worker of the quoted-phrase scanner. -/
def findQuotedF : Nat → List Char → List (List Char)
  | 0, _ => []
  | _, [] => []
  | fuel + 1, c :: rest =>
    if c = '"' then
      let run := rest.takeWhile (fun x => ¬ x = '"')
      if 2 ≤ run.length ∧ run.length ≤ 30 ∧ run.length < rest.length then
        run :: findQuotedF fuel (rest.drop (run.length + 1))
      else findQuotedF fuel rest
    else findQuotedF fuel rest

/-- Scanner for the quoted-phrase pattern: a double quote, 2 to 30
non-quote characters, and a closing double quote. -/
def findQuoted (l : List Char) : List (List Char) := findQuotedF l.length l

/-- Matcher for one capitalized word: an upper-case letter followed by
one or more lower-case letters, maximal. -/
def capsWord : List Char → Option (List Char × List Char)
  | [] => none
  | c :: rest =>
    if isUpperAZ c then
      let tail := rest.takeWhile isLowerAZ
      if tail.isEmpty then none
      else some (c :: tail, rest.drop tail.length)
    else none

/-- Matcher for one whitespace run followed by a capitalized word. -/
def capsExt (l : List Char) : Option (List Char × List Char) :=
  let sp := l.takeWhile isSpaceChar
  if sp.isEmpty then none
  else
    match capsWord (l.drop sp.length) with
    | some (w, r) => some (sp ++ w, r)
    | none => none

/-- A word boundary holds after a match when the remainder starts with a
non-word character or is empty. -/
def boundaryOk : List Char → Bool
  | [] => true
  | c :: _ => ¬ isWordChar c

/-- Matcher for the capitalized-phrase pattern at the current position:
one to three capitalized words separated by whitespace, greedy with
fallback to fewer words when the trailing word boundary fails. -/
def capsMatch (l : List Char) : Option (List Char × List Char) :=
  match capsWord l with
  | none => none
  | some (w1, r1) =>
    let cand1 := (w1, r1)
    let cand2 := match capsExt r1 with
      | some (e, r) => some (w1 ++ e, r)
      | none => none
    let cand3 := match cand2 with
      | some (m2, r2) =>
        match capsExt r2 with
        | some (e, r) => some (m2 ++ e, r)
        | none => none
      | none => none
    match cand3 with
    | some (m, r) =>
      if boundaryOk r then some (m, r)
      else match cand2 with
        | some (m2, r2) =>
          if boundaryOk r2 then some (m2, r2)
          else if boundaryOk cand1.2 then some cand1 else none
        | none => if boundaryOk cand1.2 then some cand1 else none
    | none =>
      match cand2 with
      | some (m2, r2) =>
        if boundaryOk r2 then some (m2, r2)
        else if boundaryOk cand1.2 then some cand1 else none
      | none => if boundaryOk cand1.2 then some cand1 else none

theorem capsWord_rest_length {l m r : List Char} (h : capsWord l = some (m, r)) :
    r.length < l.length := by
  match l with
  | [] => simp [capsWord] at h
  | c :: rest =>
    simp only [capsWord] at h
    by_cases hu : isUpperAZ c = true
    · simp only [hu, if_true] at h
      by_cases he : (rest.takeWhile isLowerAZ).isEmpty
      · simp [he] at h
      · simp only [he, Bool.false_eq_true, if_false, Option.some.injEq, Prod.mk.injEq] at h
        have hr : r = rest.drop (rest.takeWhile isLowerAZ).length := h.2.symm
        have : r.length ≤ rest.length := by rw [hr]; simp [List.length_drop]
        simp only [List.length_cons]
        omega
    · simp [hu] at h

theorem capsExt_rest_length {l m r : List Char} (h : capsExt l = some (m, r)) :
    r.length < l.length := by
  unfold capsExt at h
  by_cases he : (l.takeWhile isSpaceChar).isEmpty
  · simp [he] at h
  · simp only [he, Bool.false_eq_true, if_false] at h
    cases hw : capsWord (l.drop (l.takeWhile isSpaceChar).length) with
    | none => simp [hw] at h
    | some p =>
      obtain ⟨w, r0⟩ := p
      simp only [hw, Option.some.injEq, Prod.mk.injEq] at h
      have hlt := capsWord_rest_length hw
      have hr : r = r0 := h.2.symm
      subst hr
      have hdl : (l.drop (l.takeWhile isSpaceChar).length).length ≤ l.length := by
        simp [List.length_drop]
      omega

theorem capsMatch_rest_length {l m r : List Char} (h : capsMatch l = some (m, r)) :
    r.length < l.length := by
  unfold capsMatch at h
  cases hw : capsWord l with
  | none => simp [hw] at h
  | some p =>
    obtain ⟨w1, r1⟩ := p
    have h1 := capsWord_rest_length hw
    simp only [hw] at h
    cases he2 : capsExt r1 with
    | none =>
      simp only [he2] at h
      by_cases hb : boundaryOk r1 = true
      · simp only [hb, if_true, Option.some.injEq, Prod.mk.injEq] at h
        have hr : r = r1 := h.2.symm
        subst hr
        omega
      · simp [hb] at h
    | some p2 =>
      obtain ⟨e2, r2⟩ := p2
      have h2 := capsExt_rest_length he2
      simp only [he2] at h
      cases he3 : capsExt r2 with
      | none =>
        simp only [he3] at h
        by_cases hb2 : boundaryOk r2 = true
        · simp only [hb2, if_true, Option.some.injEq, Prod.mk.injEq] at h
          have hr : r = r2 := h.2.symm
          subst hr
          omega
        · simp only [hb2, Bool.false_eq_true, if_false] at h
          by_cases hb1 : boundaryOk r1 = true
          · simp only [hb1, if_true, Option.some.injEq, Prod.mk.injEq] at h
            have hr : r = r1 := h.2.symm
            subst hr
            omega
          · simp [hb1] at h
      | some p3 =>
        obtain ⟨e3, r3⟩ := p3
        have h3 := capsExt_rest_length he3
        simp only [he3] at h
        by_cases hb3 : boundaryOk r3 = true
        · simp only [hb3, if_true, Option.some.injEq, Prod.mk.injEq] at h
          have hr : r = r3 := h.2.symm
          subst hr
          omega
        · simp only [hb3, Bool.false_eq_true, if_false] at h
          by_cases hb2 : boundaryOk r2 = true
          · simp only [hb2, if_true, Option.some.injEq, Prod.mk.injEq] at h
            have hr : r = r2 := h.2.symm
            subst hr
            omega
          · simp only [hb2, Bool.false_eq_true, if_false] at h
            by_cases hb1 : boundaryOk r1 = true
            · simp only [hb1, if_true, Option.some.injEq, Prod.mk.injEq] at h
              have hr : r = r1 := h.2.symm
              subst hr
              omega
            · simp [hb1] at h

/-- Structural worker of the capitalized-phrase scanner, tracking
whether the previous character was a word character for the leading
word boundary.  A successful match consumes at least one character
(capsMatch_rest_length), so length-many fuel suffices. -/
def findCapsAuxF : Nat → Bool → List Char → List (List Char)
  | 0, _, _ => []
  | _, _, [] => []
  | fuel + 1, prevWord, c :: rest =>
    if prevWord then findCapsAuxF fuel (isWordChar c) rest
    else
      match capsMatch (c :: rest) with
      | some (m, r) => m :: findCapsAuxF fuel true r
      | none => findCapsAuxF fuel (isWordChar c) rest

/-- Scanner for the capitalized-phrase findall. -/
def findCaps (l : List Char) : List (List Char) := findCapsAuxF l.length false l

/-- Structural worker of the word-run tokenizer. -/
def wordRunsF : Nat → List Char → List (List Char)
  | 0, _ => []
  | _, [] => []
  | fuel + 1, c :: rest =>
    if isWordChar c then
      let run := rest.takeWhile isWordChar
      (c :: run) :: wordRunsF fuel (rest.drop run.length)
    else wordRunsF fuel rest

/-- Maximal runs of word characters. -/
def wordRuns (l : List Char) : List (List Char) := wordRunsF l.length l

/-- Scanner for the key-term pattern: maximal word runs that consist
only of lower-case letters and have length at least 3 match the
boundary-delimited pattern of three or more lower-case letters. -/
def findWords (l : List Char) : List (List Char) :=
  (wordRuns l).filter (fun r => r.all isLowerAZ && 3 ≤ r.length)

/-- Matcher for the bigram pattern at the current position: a maximal
lower-case run of length at least 3, a whitespace run, and a second
maximal lower-case run of length at least 3 ending at a word boundary. -/
def bigramMatch (l : List Char) : Option (List Char × List Char) :=
  let r1 := l.takeWhile isLowerAZ
  if r1.length < 3 then none
  else
    let l1 := l.drop r1.length
    let sp := l1.takeWhile isSpaceChar
    if sp.isEmpty then none
    else
      let l2 := l1.drop sp.length
      let r2 := l2.takeWhile isLowerAZ
      if r2.length < 3 then none
      else
        let l3 := l2.drop r2.length
        if boundaryOk l3 then some (r1 ++ sp ++ r2, l3) else none

theorem bigramMatch_rest_length {l m r : List Char} (h : bigramMatch l = some (m, r)) :
    r.length < l.length := by
  have ha : (l.takeWhile isLowerAZ).length ≤ l.length := (List.takeWhile_sublist _).length_le
  unfold bigramMatch at h
  simp only [] at h
  split at h
  next hc1 => exact absurd h (by simp)
  next hc1 =>
    split at h
    next hc2 => exact absurd h (by simp)
    next hc2 =>
      split at h
      next hc3 => exact absurd h (by simp)
      next hc3 =>
        split at h
        next hc4 =>
          simp only [Option.some.injEq, Prod.mk.injEq] at h
          obtain ⟨-, h6⟩ := h
          subst h6
          simp only [List.length_drop]
          omega
        next hc4 => exact absurd h (by simp)

/-- Structural worker of the bigram scanner, tracking the leading word
boundary.  A successful match consumes at least one character
(bigramMatch_rest_length), so length-many fuel suffices. -/
def findBigramsAuxF : Nat → Bool → List Char → List (List Char)
  | 0, _, _ => []
  | _, _, [] => []
  | fuel + 1, prevWord, c :: rest =>
    if prevWord then findBigramsAuxF fuel (isWordChar c) rest
    else
      match bigramMatch (c :: rest) with
      | some (m, r) => m :: findBigramsAuxF fuel true r
      | none => findBigramsAuxF fuel (isWordChar c) rest

/-- Scanner for the bigram findall. -/
def findBigrams (l : List Char) : List (List Char) := findBigramsAuxF l.length false l

/-! ### extract_entities (memory.py lines 117-186) -/

/-- Recognized topic keys of a structured input (memory.py lines 123-127). -/
def topic_fields : List String := [
  "topic", "about", "subject", "name", "title", "category",
  "area", "domain", "field", "concept", "item", "what",
  "learning", "studying", "project", "goal", "target"]

/-- Recognized list-valued keys of a structured input (line 135). -/
def list_fields : List String :=
  ["topics", "tags", "categories", "items", "subjects", "areas"]

/-- Everything before the last dot, as in rsplit on a dot with one split
and taking the first component. -/
def beforeLastDot (l : List Char) : List Char :=
  ((l.reverse.dropWhile (fun c => ¬ c = '.')).drop 1).reverse

/-- Priority entities mined from a structured input: string values of
topic keys (plus the prefix before the last dot when the value is
dotted), then the string members of list-valued keys, in source order. -/
def priorityEntities (kvs : List (String × Json)) : List (List Char) :=
  let fromTopics := topic_fields.flatMap (fun k =>
    match jlookup kvs k with
    | some (.str v) =>
      let val := pyStripL (lowerL v.toList)
      if val.contains '.' then [val, beforeLastDot val] else [val]
    | _ => [])
  let fromLists := list_fields.flatMap (fun k =>
    match jlookup kvs k with
    | some (.arr items) => items.flatMap (fun it =>
        match it with
        | .str s => [pyStripL (lowerL s.toList)]
        | _ => [])
    | _ => [])
  fromTopics ++ fromLists

/-- First-occurrence deduplication with an explicit seen accumulator,
modelling insertion into a Python set. -/
def dedupSeen : List (List Char) → List (List Char) → List (List Char)
  | _, [] => []
  | seen, x :: xs =>
    if seen.contains x then dedupSeen seen xs
    else x :: dedupSeen (x :: seen) xs

/-- Lexicographic comparison of character lists by code point. -/
def listCharLe : List Char → List Char → Bool
  | [], _ => true
  | _ :: _, [] => false
  | a :: xs, b :: ys =>
    if a.toNat < b.toNat then true
    else if b.toNat < a.toNat then false
    else listCharLe xs ys

/-- Insertion of an element into a sorted list under a boolean order. -/
def insertSorted {α : Type} (le : α → α → Bool) (x : α) : List α → List α
  | [] => [x]
  | y :: ys => if le x y then x :: y :: ys else y :: insertSorted le x ys

/-- Insertion sort, modelling Python sorted and Cypher ORDER BY under a
total boolean order (every order used in this file breaks ties fully,
so the choice of sorting algorithm does not matter). -/
def sortBy {α : Type} (le : α → α → Bool) (l : List α) : List α :=
  l.foldr (insertSorted le) []

/-- Sort order of generic entities: by word count then length, as in the
source.  Python leaves ties in the unspecified iteration order of the
set; the model resolves ties lexicographically to stay a function. -/
def genKeyLe (a b : List Char) : Bool :=
  let wa := (splitWs a).length
  let wb := (splitWs b).length
  if wa = wb then
    if a.length = b.length then listCharLe a b
    else decide (a.length < b.length)
  else decide (wa < wb)

/-- Combination loop of extract_entities (lines 175-184): walk a list of
entities, skipping already-seen ones; priority entries are additionally
required to be nonempty of length at least 3.  Returns the seen set and
the accumulated result. -/
def combineLoop (isPrio : Bool) : List (List Char) → List (List Char) → List (List Char) →
    (List (List Char) × List (List Char))
  | [], seen, acc => (seen, acc)
  | e :: es, seen, acc =>
    let ok := if isPrio
      then !e.isEmpty && !seen.contains e && decide (3 ≤ e.length)
      else !seen.contains e
    if ok then combineLoop isPrio es (e :: seen) (acc ++ [e])
    else combineLoop isPrio es seen acc

/-- Priority entities of the input: only a structured input yields any. -/
def extractPriority (content : Content) : List (List Char) :=
  match content with
  | .struct kvs => priorityEntities kvs
  | .plain _ => []

/-- The textual form the generic miners run on: json.dumps of a
structured input, the string itself otherwise. -/
def extractRawText (content : Content) : List Char :=
  match content with
  | .struct kvs => jdump kvs
  | .plain s => s.toList

/-- Generic entity candidates (lines 147-169): hashtags, quoted phrases
of at most four words, capitalized phrases not in the stop list, key
terms, and bigrams with no stop-word part, all in the order the source
inserts them into the set. -/
def genericCandidates (content : Content) : List (List Char) :=
  let rawText := extractRawText content
  let text := lowerL rawText
  let hashtags := (findHashtags text).map lowerL
  let quoted := ((findQuoted text).filter
    (fun q => decide ((splitWs q).length ≤ 4))).map (fun q => pyStripL (lowerL q))
  let caps := ((findCaps rawText).map lowerL).filter (fun c => !isStop c)
  let words := (findWords text).filter
    (fun w => !isStop w && decide (3 ≤ w.length) && decide (w.length ≤ 20))
  let bigrams := (findBigrams text).filter
    (fun bg => (splitWs bg).all (fun p => !isStop p))
  hashtags ++ quoted ++ caps ++ words ++ bigrams

/-- The generic entities after the set comprehension of line 171 and the
sort of line 172 (the set is modelled by first-occurrence
deduplication; key ties are resolved lexicographically). -/
def sortedGenerics (content : Content) : List (List Char) :=
  sortBy genKeyLe ((dedupSeen [] (genericCandidates content)).filter
    (fun e => decide (3 ≤ e.length) && !isStop e))

/-- Model of extract_entities (memory.py lines 117-186): priority
entities from a structured input, generic entities mined from the
lowered textual form by the five regex scanners, stop-word and length
filtered as in the source, sorted, merged after the priority entries
with first-seen deduplication, and truncated to 15. -/
def extract_entities (content : Content) : List String :=
  let step1 := combineLoop true (extractPriority content) [] []
  let step2 := combineLoop false (sortedGenerics content) step1.1 step1.2
  (step2.2.take 15).map String.mk

/-! ### classify_memory (memory.py lines 189-213) -/

/-- Ordered keyword table of the classifier (lines 198-207). -/
def classifiers : List (String × List String) := [
  ("instruction", ["always", "never", "rule", "instruction", "standing order",
    "must always", "must never", "guideline", "policy"]),
  ("decision", ["decided", "decision", "chose", "choice", "picked", "selected",
    "going with", "will use", "opted"]),
  ("preference", ["prefer", "preference", "favorite", "like best", "rather",
    "better to", "style"]),
  ("learning", ["learned", "learning", "studied", "studying", "understood",
    "realized", "discovered", "insight"]),
  ("task", ["todo", "task", "need to", "should", "must", "will do", "plan to",
    "going to", "next step"]),
  ("question", ["question", "wondering", "curious", "ask about", "find out",
    "research", "investigate"]),
  ("note", ["note", "noticed", "observed", "important", "remember that",
    "keep in mind"]),
  ("progress", ["completed", "finished", "done", "progress", "achieved",
    "accomplished", "milestone"])]

/-- Substring test modelling the Python in operator on strings. -/
def containsSub (needle : List Char) : List Char → Bool
  | [] => needle.isEmpty
  | c :: rest => needle.isPrefixOf (c :: rest) || containsSub needle rest

/-- First classifier label whose keyword list hits the text, else info. -/
def classifyText (text : List Char) : String :=
  match classifiers.find? (fun p => p.2.any (fun w => containsSub w.toList text)) with
  | some p => p.1
  | none => "info"

/-- Model of classify_memory: a structured input with a string type field
returns its first 20 characters, otherwise the lowered textual form is
matched against the ordered keyword table. -/
def classify_memory (content : Content) : String :=
  match content with
  | .struct kvs =>
    match jlookup kvs "type" with
    | some (.str t) => String.mk (t.toList.take 20)
    | _ => classifyText (lowerL (jdump kvs))
  | .plain s => classifyText (lowerL s.toList)

/-! ### Lucene escaping (memory.py lines 885 and 1439) -/

/-- The reserved Lucene metacharacters escaped by the source. -/
def luceneChars : List Char :=
  ['+', '-', '&', '|', '!', '(', ')', '\x7b', '\x7d', '[', ']', '^', '"',
   '~', '*', '?', ':', '\\', '/']

/-- Membership in the reserved metacharacter class. -/
def isLuceneChar (c : Char) : Bool := luceneChars.contains c

/-- Model of the re.sub call that puts a backslash before every reserved
metacharacter. -/
def luceneEscapeL (l : List Char) : List Char :=
  l.flatMap (fun c => if isLuceneChar c then ['\\', c] else [c])

/-- String form of the escape. -/
def luceneEscape (s : String) : String := String.mk (luceneEscapeL s.toList)

/-- A character list is sanitized when every reserved metacharacter in it
is consumed as the second character of a backslash pair. -/
def sanitizedL : List Char → Bool
  | [] => true
  | c :: rest =>
    if c = '\\' then
      match rest with
      | [] => false
      | _ :: rest2 => sanitizedL rest2
    else !isLuceneChar c && sanitizedL rest

/-! ### Data model: memory records, graph nodes, persisted state -/

/-- The normalized memory record built by cmd_remember (lines 1044-1062)
and stored in the WAL pending list. -/
structure Memory where
  id : String
  content : String
  summary : String
  type : String
  importance : Int
  confidence : Rat
  decayDays : Option Int
  supersedes : Option String
  project : Option String
  tags : List String
  entities : List String
  created : Int
  updated : Int
  sessionId : Option String
  source : String
  sourceChannel : Option String
  sourceMessageId : Option String
deriving Repr, DecidableEq

/-- A Memory node of the graph store.  Option models a property that a
Cypher SET to null or REMOVE clause leaves absent. -/
structure GMem where
  id : String
  content : Option String
  summary : Option String
  type : String
  importance : Int
  project : Option String
  created : Int
  updated : Option Int
  sessionId : Option String
  source : Option String
  confidence : Option Rat
  decayDays : Option Int
  sourceChannel : Option String
  sourceMessageId : Option String
  forgotten : Option Bool
  forgottenAt : Option Int
  deleteReason : Option String
deriving Repr, DecidableEq

/-- The graph: memory nodes plus entity, tag, project and session nodes
and the five relationship kinds, as merged by the source. -/
structure Graph where
  memories : List GMem
  entityNodes : List String
  tagNodes : List String
  projectNodes : List String
  sessionNodes : List String
  mentions : List (String × String)
  tagged : List (String × String)
  belongsTo : List (String × String)
  recordedIn : List (String × String)
  supersedesE : List (String × String)
deriving Repr, DecidableEq

/-- The wal section of the state record (load_state line 228). -/
structure WalState where
  pending : List Memory
  lastFlush : Option Int
deriving Repr, DecidableEq

/-- The session section of the state record. -/
structure SessionSt where
  id : Option String
  startedAt : Option Int
  project : Option String
  branch : Option String
deriving Repr, DecidableEq

/-- The queue section of the state record. -/
structure QueueSt where
  pendingCount : Int
  consecutiveFailures : Int
  lastDrainAttempt : Option Int
  lastSuccess : Option Int
deriving Repr, DecidableEq

/-- The stats section of the state record. -/
structure StatsSt where
  totalMemories : Int
  totalRecalls : Int
  totalSearches : Int
  lastMemoryAt : Option Int
deriving Repr, DecidableEq

/-- The persisted state record (state.json). -/
structure EvaState where
  wal : WalState
  session : SessionSt
  queue : QueueSt
  stats : StatsSt
deriving Repr, DecidableEq

/-- The backoff bound MAX_QUEUE_FAILURES of memory.py line 88. -/
def MAX_QUEUE_FAILURES : Int := 10

/-- The active-memory predicate ACTIVE_MEMORY of memory.py lines 91-93:
not forgotten, and either no decayDays or created plus the decay
duration still after now.  Timestamps are integers counted in days. -/
def activeB (now : Int) (m : GMem) : Bool :=
  !(m.forgotten.getD false) &&
    (m.decayDays.isNone || decide (now < m.created + m.decayDays.getD 36500))

/-! ### WAL protocol (memory.py lines 997-1015) -/

/-- Model of wal_write: append the full memory record to wal.pending. -/
def wal_write (memory : Memory) (state : EvaState) : EvaState :=
  { state with wal := { state.wal with pending := state.wal.pending ++ [memory] } }

/-- Model of wal_flush (lines 1004-1009): drop every pending entry whose
id equals the given id and stamp wal.lastFlush. -/
def wal_flush (now : Int) (memory_id : String) (state : EvaState) : EvaState :=
  { state with wal :=
      { pending := state.wal.pending.filter (fun m => m.id != memory_id),
        lastFlush := some now } }

/-! ### Graph-store operations -/

/-- Merge an edge, as a Cypher MERGE does: add it unless already there. -/
def mergeEdge (edges : List (String × String)) (e : String × String) :
    List (String × String) :=
  if edges.contains e then edges else edges ++ [e]

/-- Merge a node key, as a Cypher MERGE on a keyed node does. -/
def mergeNode (nodes : List String) (n : String) : List String :=
  if nodes.contains n then nodes else nodes ++ [n]

/-- The SET of all scalar properties in neo4j_store (lines 283-314).
Properties set to a null parameter are removed, hence the Option
fields of Memory map straight onto Option fields of GMem. -/
def setScalars (memory : Memory) (node : GMem) : GMem :=
  { node with
    content := some memory.content,
    summary := some memory.summary,
    type := memory.type,
    importance := memory.importance,
    project := memory.project,
    created := memory.created,
    updated := some memory.updated,
    sessionId := memory.sessionId,
    source := some memory.source,
    confidence := some memory.confidence,
    decayDays := memory.decayDays,
    sourceChannel := memory.sourceChannel,
    sourceMessageId := memory.sourceMessageId }

/-- A fresh Memory node created by MERGE before the SET is applied. -/
def freshNode (id : String) : GMem :=
  { id := id, content := none, summary := none, type := "", importance := 0,
    project := none, created := 0, updated := none, sessionId := none,
    source := none, confidence := none, decayDays := none,
    sourceChannel := none, sourceMessageId := none, forgotten := none,
    forgottenAt := none, deleteReason := none }

/-- Graph effect of neo4j_store (lines 274-380): merge the memory node
and set its scalars; on a supersedes chain, merge the SUPERSEDES edge
and mark the predecessor forgotten with a deleteReason (the source sets
nothing else on the predecessor); then merge entity, tag, project and
session nodes and their edges. -/
def neo4j_store_apply (memory : Memory) (g : Graph) : Graph :=
  let mems :=
    if g.memories.any (fun m => m.id == memory.id) then
      g.memories.map (fun m => if m.id == memory.id then setScalars memory m else m)
    else g.memories ++ [setScalars memory (freshNode memory.id)]
  let g1 : Graph := { g with memories := mems }
  let g2 : Graph :=
    match memory.supersedes with
    | some oldId =>
      if g1.memories.any (fun m => m.id == oldId) then
        { g1 with
          supersedesE := mergeEdge g1.supersedesE (memory.id, oldId),
          memories := g1.memories.map (fun m =>
            if m.id == oldId then
              { m with forgotten := some true,
                       deleteReason := some ("superseded by " ++ memory.id) }
            else m) }
      else g1
    | none => g1
  let g3 : Graph := memory.entities.foldl (fun g e =>
    { g with entityNodes := mergeNode g.entityNodes e,
             mentions := mergeEdge g.mentions (memory.id, e) }) g2
  let g4 : Graph := memory.tags.foldl (fun g t =>
    { g with tagNodes := mergeNode g.tagNodes t,
             tagged := mergeEdge g.tagged (memory.id, t) }) g3
  let g5 : Graph :=
    match memory.project with
    | some p => { g4 with projectNodes := mergeNode g4.projectNodes p,
                          belongsTo := mergeEdge g4.belongsTo (memory.id, p) }
    | none => g4
  match memory.sessionId with
  | some sid => { g5 with sessionNodes := mergeNode g5.sessionNodes sid,
                          recordedIn := mergeEdge g5.recordedIn (memory.id, sid) }
  | none => g5

/-- Graph effect of neo4j_forget_with_reason (lines 630-649): set
forgotten, forgottenAt and deleteReason and remove content and summary
on the matching node. -/
def neo4j_forget_with_reason_apply (now : Int) (memory_id : String)
    (reason : Option String) (g : Graph) : Graph :=
  { g with memories := g.memories.map (fun m =>
      if m.id == memory_id then
        { m with forgotten := some true, forgottenAt := some now,
                 deleteReason := reason, content := none, summary := none }
      else m) }

/-- Model of cmd_maintain (lines 1569-1601).  The source computes the
cutoff as datetime.now() (line 1578): max_age_days is read at line 1571
but never subtracted from the cutoff, so the underscore-named argument
is unused, exactly as in the source.  Prunes every active memory whose
importance is below the threshold and whose created stamp is before
now, erasing content and summary and stamping forgottenAt and the
deleteReason maintenance-pruned.  Returns the pruned and compacted
counters and the new graph; with the driver down it returns zeros. -/
def cmd_maintain (now : Int) (neo4jUp : Bool) (_maxAgeDays : Int)
    (minImportance : Int) (g : Graph) : (Int × Int) × Graph :=
  if neo4jUp then
    let cutoff := now
    let prune := fun (m : GMem) =>
      decide (m.importance < minImportance) && decide (m.created < cutoff) &&
        activeB now m
    let prunedCount := (g.memories.filter prune).length
    (((prunedCount : Int), 0),
      { g with memories := g.memories.map (fun m =>
          if prune m then
            { m with forgotten := some true, forgottenAt := some now,
                     deleteReason := some "maintenance-pruned",
                     content := none, summary := none }
          else m) })
  else ((0, 0), g)

/-! ### The pending-embeddings queue and drain_queue (lines 916-990) -/

/-- The metadata value of a parsed queue record: either a mapping (a
missing metadata key behaves as the empty mapping, the default of the
get call at line 967) or a JSON value that is not a mapping, on which
the double-star splat of line 967 raises TypeError. -/
inductive QMeta where
  | mapping (kvs : List (String × String))
  | notMapping (raw : String)
deriving Repr, DecidableEq

/-- One line of the pending-embeddings jsonl file: blank, unparseable as
JSON (loads raises JSONDecodeError, caught at line 974), a JSON value
that is not an object (the content subscript then raises an uncaught
TypeError), or a JSON object with optional id and content keys and a
metadata value. -/
inductive QLine where
  | blank
  | badJson (raw : String)
  | nonObject (raw : String)
  | record (id : Option String) (content : Option String) (metadata : QMeta)
deriving Repr, DecidableEq

/-- Truthiness of an Ollama embedding result, as tested by the source
with an if on the returned value: absent and empty are both falsy. -/
def truthyEmb : Option (List Rat) → Bool
  | none => false
  | some v => !v.isEmpty

/-- Environment of one drain_queue call: the clock, the health-check
outcome, and the per-record outcomes of the embed and store calls
(keyed by record content and by id and content). -/
structure DrainEnv where
  now : Int
  healthOk : Bool
  embedOf : String → Option (List Rat)
  storeOk : String → String → Bool

/-- Effects performed by a drain: whether the health check ran and how
many embed and store calls were made. -/
structure DrainFx where
  healthChecked : Bool
  embedCalls : Nat
  storeCalls : Nat
deriving Repr, DecidableEq

/-- Status strings returned by drain_queue. -/
inductive DrainStatus where
  | empty
  | skippedMaxFailures
  | chromadbOffline
  | ok
deriving Repr, DecidableEq

/-- The result dict of drain_queue. -/
structure DrainResult where
  processed : Nat
  remaining : Nat
  status : DrainStatus
deriving Repr, DecidableEq

/-- Whether a queue line is blank. -/
def isBlank : QLine → Bool
  | .blank => true
  | _ => false

/-- Outcome of one iteration of the drain loop body. -/
inductive StepOutcome where
  | drop
  | keep
  | stored
  | raise
deriving Repr, DecidableEq

/-- Per-line step of the drain loop (lines 958-976).  The except clause
of line 974 catches only JSONDecodeError and KeyError, so unparseable
lines and missing-key accesses are dropped, while a subscript on a
non-object JSON value and the splat of a non-mapping metadata value
raise an uncaught TypeError.  In source order: the content subscript
(drop on a missing key, raise on a non-object line), the embed call (a
falsy embedding keeps the line before id or metadata are touched), the
id subscript (drop on a missing key), the metadata splat (raise when
not a mapping), then the store call deciding between stored and kept.
Returns the outcome, the embed calls and the store calls. -/
def drainLine (env : DrainEnv) : QLine → (StepOutcome × Nat × Nat)
  | .blank => (.drop, 0, 0)
  | .badJson _ => (.drop, 0, 0)
  | .nonObject _ => (.raise, 0, 0)
  | .record id content meta =>
    match content with
    | none => (.drop, 0, 0)
    | some c =>
      let emb := env.embedOf c
      if !truthyEmb emb then (.keep, 1, 0)
      else
        match id with
        | none => (.drop, 1, 0)
        | some i =>
          match meta with
          | .notMapping _ => (.raise, 1, 0)
          | .mapping _ =>
            if env.storeOk i c then (.stored, 1, 1) else (.keep, 1, 1)

/-- The drain loop over the queue lines in file order.  The first
component is none when a line raised the uncaught TypeError, which
aborts the loop and discards the processed count and the retained
lines; the call counters keep the calls made before the abort. -/
def drainLoop (env : DrainEnv) : List QLine → (Option (Nat × List QLine) × Nat × Nat)
  | [] => (some (0, []), 0, 0)
  | l :: rest =>
    let step := drainLine env l
    if step.1 = .raise then (none, step.2.1, step.2.2)
    else
      let tail := drainLoop env rest
      ((match tail.1 with
        | none => none
        | some pr =>
          some ((if step.1 = .stored then 1 else 0) + pr.1,
                (if step.1 = .keep then [l] else []) ++ pr.2)),
       step.2.1 + tail.2.1, step.2.2 + tail.2.2)

/-- Model of drain_queue (lines 935-990) over the queue file (none when
the file does not exist), the state record, and the call environment.
Returns the result dict (none when the loop raised the uncaught
TypeError, which propagates out of the command with no rewrite and no
state save), the queue file after the call, the state record after the
call, and the effects performed. -/
def drain_queue (env : DrainEnv) (file : Option (List QLine)) (state : EvaState) :
    Option DrainResult × Option (List QLine) × EvaState × DrainFx :=
  match file with
  | none =>
    (some { processed := 0, remaining := 0, status := .empty }, none, state,
     { healthChecked := false, embedCalls := 0, storeCalls := 0 })
  | some raw =>
    let lines := raw.filter (fun l => !isBlank l)
    if lines.isEmpty then
      (some { processed := 0, remaining := 0, status := .empty }, some raw, state,
       { healthChecked := false, embedCalls := 0, storeCalls := 0 })
    else if MAX_QUEUE_FAILURES ≤ state.queue.consecutiveFailures then
      (some { processed := 0, remaining := lines.length,
              status := .skippedMaxFailures },
       some raw, state,
       { healthChecked := false, embedCalls := 0, storeCalls := 0 })
    else if env.healthOk then
      let res := drainLoop env lines
      match res.1 with
      | some pr =>
        (some { processed := pr.1, remaining := pr.2.length, status := .ok },
         some pr.2,
         { state with queue :=
             { pendingCount := pr.2.length,
               consecutiveFailures := 0,
               lastDrainAttempt := some env.now,
               lastSuccess := some env.now } },
         { healthChecked := true, embedCalls := res.2.1, storeCalls := res.2.2 })
      | none =>
        (none, some raw, state,
         { healthChecked := true, embedCalls := res.2.1, storeCalls := res.2.2 })
    else
      (some { processed := 0, remaining := lines.length,
              status := .chromadbOffline },
       some raw,
       { state with queue :=
           { state.queue with
             consecutiveFailures := state.queue.consecutiveFailures + 1,
             lastDrainAttempt := some env.now } },
       { healthChecked := true, embedCalls := 0, storeCalls := 0 })

/-- Model of queue_for_embedding (lines 916-932): append one record with
the id, content and flat metadata of the memory to the jsonl file,
creating the file when absent. -/
def queue_for_embedding (memory : Memory) (file : Option (List QLine)) :
    Option (List QLine) :=
  let entry : QLine := .record (some memory.id) (some memory.content)
    (.mapping [("type", memory.type),
      ("importance", toString memory.importance),
      ("project", memory.project.getD ""),
      ("created", toString memory.created),
      ("summary", memory.summary)])
  some ((file.getD []) ++ [entry])

/-! ### check_duplicates (memory.py lines 847-913) -/

/-- Decisions of the duplicate check. -/
inductive DupAction where
  | skip
  | replace
  | allow
deriving Repr, DecidableEq

/-- The dict returned by check_duplicates. -/
structure DupResult where
  action : DupAction
  existingId : Option String
  similarity : Option Rat
deriving Repr, DecidableEq

/-- Environment of one check_duplicates call: which services are
configured, the embed result, the ChromaDB top-1 answer (outer none
models a request error, inner none an empty id list, and the optional
rational the distance when the response carried distances), the driver
availability, and the top fulltext record for a given query string. -/
structure DupEnv where
  chromaUrl : Bool
  chromaCollection : Bool
  ollamaUrl : Bool
  embedResult : Option (List Rat)
  chromaTop : Option (Option (String × Option Rat))
  neo4jUp : Bool
  fulltextTop : String → Option (String × Rat)

/-- Primary ChromaDB branch of check_duplicates (lines 850-878): with
all three services configured and a truthy embedding, a top-1 answer
with similarity above 0.92 decides skip and above 0.5 decides replace;
every other outcome falls through to the fallback. -/
def chromaPrimary (env : DupEnv) : Option DupResult :=
  if env.chromaUrl && env.chromaCollection && env.ollamaUrl then
    if truthyEmb env.embedResult then
      match env.chromaTop with
      | some (some (existingId, distOpt)) =>
        let distance := distOpt.getD 999
        let similarity := 1 / (1 + distance)
        if 92 / 100 < similarity then
          some { action := .skip, existingId := some existingId,
                 similarity := some similarity }
        else if 1 / 2 < similarity then
          some { action := .replace, existingId := some existingId,
                 similarity := some similarity }
        else none
      | _ => none
    else none
  else none

/-- Model of check_duplicates: the ChromaDB branch first; otherwise the
Neo4j fulltext fallback on the Lucene-escaped first 200 characters of
the content, returning allow without an engine call when the escaped
query is blank, and mapping a top score above 8 to skip and above 4 to
replace with the score divided by 10 as similarity.  The second
component lists the queries issued to the fulltext engine. -/
def check_duplicates (env : DupEnv) (content : String) (mem_type : String)
    (_project : Option String) : DupResult × List String :=
  match chromaPrimary env with
  | some r => (r, [])
  | none =>
    if env.neo4jUp then
      let safe_query := luceneEscape (String.mk (content.toList.take 200))
      if pyStrip safe_query = "" then
        ({ action := .allow, existingId := none, similarity := none }, [])
      else
        match env.fulltextTop safe_query with
        | some (recId, score) =>
          if 8 < score then
            ({ action := .skip, existingId := some recId,
               similarity := some (min (score / 10) 1) }, [safe_query])
          else if 4 < score then
            ({ action := .replace, existingId := some recId,
               similarity := some (score / 10) }, [safe_query])
          else
            ({ action := .allow, existingId := none, similarity := none },
             [safe_query])
        | none =>
          ({ action := .allow, existingId := none, similarity := none },
           [safe_query])
    else ({ action := .allow, existingId := none, similarity := none }, [])

/-! ### The write pipeline cmd_remember (memory.py lines 1022-1118) -/

/-- Arguments of the remember command, with the defaults the source
reads out of the args dict. -/
structure RememberArgs where
  content : String
  typeOpt : Option String := none
  importance : Int := 5
  project : Option String := none
  tags : List String := []
  summaryOpt : Option String := none
  entitiesOpt : Option (List String) := none
  confidence : Rat := 4 / 5
  decayDays : Option Int := none
  supersedes : Option String := none
  source : String := "agent"
  sourceChannel : Option String := none
  sourceMessageId : Option String := none
deriving Repr, DecidableEq

/-- The memory type of line 1028: the type argument when truthy (a
missing or empty value falls back to the classifier). -/
def memoryType (args : RememberArgs) : String :=
  match args.typeOpt with
  | some t => if t = "" then classify_memory (.plain args.content) else t
  | none => classify_memory (.plain args.content)

/-- The entity list of line 1033: the entities argument when truthy (a
missing or empty value falls back to the extractor). -/
def memoryEntities (args : RememberArgs) : List String :=
  match args.entitiesOpt with
  | some es => if es.isEmpty then extract_entities (.plain args.content) else es
  | none => extract_entities (.plain args.content)

/-- Environment of one cmd_remember call: the fresh uuid, the clock, the
duplicate-check environment (which also carries the shared service
configuration flags), and the outcomes of the markdown write, the graph
write, the layer-3 embed call and the layer-3 ChromaDB store call. -/
structure RememberEnv where
  freshId : String
  now : Int
  dup : DupEnv
  mdOk : Bool
  neoStoreOk : Bool
  storeEmbed : Option (List Rat)
  chromaStoreOk : Bool

/-- The world a remember call acts on: the state record, the graph, the
markdown log (as the list of appended memory blocks), the
pending-embeddings file, and the vector store (as the ids written). -/
structure World where
  state : EvaState
  graph : Graph
  mdLog : List Memory
  queueFile : Option (List QLine)
  vector : List String
deriving Repr, DecidableEq

/-- Model of markdown_store (lines 656-709): on success the rendered
block for the memory is appended to the daily log; rendering itself is
the block format of the spec and is not needed by any claim, so the log
keeps the memory record. -/
def markdown_store (ok : Bool) (memory : Memory) (log : List Memory) :
    Bool × List Memory :=
  if ok then (true, log ++ [memory]) else (false, log)

/-- Model of chroma_store (lines 748-773): fails when the URL or the
collection is not configured, otherwise the oracle decides; on success
the id is written to the vector store. -/
def chroma_store (chromaUrl chromaCollection storeOk : Bool) (memory : Memory)
    (vec : List String) : Bool × List String :=
  if chromaUrl && chromaCollection then
    if storeOk then (true, vec ++ [memory.id]) else (false, vec)
  else (false, vec)

/-- The normalized memory record of lines 1044-1062, before the
duplicate check. -/
def normalizeMemory (env : RememberEnv) (args : RememberArgs)
    (sessionId : Option String) : Memory :=
  { id := env.freshId,
    content := args.content,
    summary := args.summaryOpt.getD (String.mk (args.content.toList.take 200)),
    type := memoryType args,
    importance := args.importance,
    confidence := args.confidence,
    decayDays := args.decayDays,
    supersedes := args.supersedes,
    project := args.project,
    tags := args.tags,
    entities := memoryEntities args,
    created := env.now,
    updated := env.now,
    sessionId := sessionId,
    source := args.source,
    sourceChannel := args.sourceChannel,
    sourceMessageId := args.sourceMessageId }

/-- The memory record as written to the WAL and the stores: the
normalized record, with supersedes overwritten by the duplicate check
when it decided replace (line 1069). -/
def rememberRecord (env : RememberEnv) (args : RememberArgs)
    (sessionId : Option String) : Memory :=
  let memory := normalizeMemory env args sessionId
  let dup := (check_duplicates env.dup args.content (memoryType args) args.project).1
  if dup.action = .replace then { memory with supersedes := dup.existingId }
  else memory

/-- The outcome dict of a stored memory (lines 1104-1118). -/
structure RememberOutcome where
  id : String
  type : String
  importance : Int
  confidence : Rat
  decayDays : Option Int
  supersedes : Option String
  entities : List String
  markdown : Bool
  neo4j : Bool
  chromadb : Bool
  queued : Bool
deriving Repr, DecidableEq

/-- The three result shapes of cmd_remember. -/
inductive RememberResult where
  | error (msg : String)
  | skipped (existingId : Option String) (similarity : Option Rat)
  | stored (o : RememberOutcome)
deriving Repr, DecidableEq

/-- Model of cmd_remember (lines 1022-1118): reject empty content; run
the duplicate check and return early on skip with nothing written; set
supersedes on replace; append the record to the WAL; fan out to
markdown, graph and ChromaDB (queueing the record when the vector
layer is configured but did not store); flush the WAL when markdown or
graph succeeded; bump the stats; and return the outcome dict. -/
def cmd_remember (env : RememberEnv) (args : RememberArgs) (w : World) :
    RememberResult × World :=
  if args.content = "" then (.error "content is required", w)
  else
    let memory_type := memoryType args
    let dup := (check_duplicates env.dup args.content memory_type args.project).1
    if dup.action = .skip then
      (.skipped dup.existingId dup.similarity, w)
    else
      let memory := rememberRecord env args w.state.session.id
      let st1 := wal_write memory w.state
      let md := markdown_store env.mdOk memory w.mdLog
      let neo_ok := env.dup.neo4jUp && env.neoStoreOk
      let graph1 := if neo_ok then neo4j_store_apply memory w.graph else w.graph
      let l3 : Bool × Bool × Option (List QLine) × List String :=
        if env.dup.chromaUrl && env.dup.ollamaUrl then
          if truthyEmb env.storeEmbed then
            let cs := chroma_store env.dup.chromaUrl env.dup.chromaCollection
              env.chromaStoreOk memory w.vector
            if cs.1 then (true, false, w.queueFile, cs.2)
            else (false, true, queue_for_embedding memory w.queueFile, cs.2)
          else (false, true, queue_for_embedding memory w.queueFile, w.vector)
        else if env.dup.chromaUrl then
          (false, true, queue_for_embedding memory w.queueFile, w.vector)
        else (false, false, w.queueFile, w.vector)
      let st2 := if md.1 || neo_ok then wal_flush env.now memory.id st1 else st1
      let st3 := { st2 with stats := { st2.stats with
          totalMemories := st2.stats.totalMemories + 1,
          lastMemoryAt := some env.now } }
      (.stored {
          id := memory.id,
          type := memory_type,
          importance := args.importance,
          confidence := args.confidence,
          decayDays := args.decayDays,
          supersedes := memory.supersedes,
          entities := (memoryEntities args).take 5,
          markdown := md.1,
          neo4j := neo_ok,
          chromadb := l3.1,
          queued := l3.2.1 },
       { state := st3, graph := graph1, mdLog := md.2,
         queueFile := l3.2.2.1, vector := l3.2.2.2 })

/-! ### neo4j_search and cmd_summarize (lines 386-462 and 1425-1483) -/

/-- Environment of the graph read surfaces: driver availability and the
two fulltext indexes as oracles from the issued query string to the
scored hits the engine returns. -/
structure SearchEnv where
  neo4jUp : Bool
  memFulltext : String → List (GMem × Rat)
  entFulltext : String → List (String × Rat)

/-- A result row of neo4j_search. -/
structure SearchRow where
  id : String
  content : Option String
  summary : Option String
  type : String
  importance : Int
  confidence : Option Rat
  project : Option String
  created : Int
  score : Rat
  source : String
deriving Repr, DecidableEq

/-- The WHERE fragment shared by the read surfaces: active, and matching
the optional project and type filters. -/
def matchesFilters (now : Int) (project mem_type : Option String) (m : GMem) : Bool :=
  activeB now m && (project.isNone || m.project == project) &&
    (mem_type.isNone || some m.type == mem_type)

/-- Sort for ORDER BY score DESC, importance DESC. -/
def byScoreImpDesc (a b : GMem × Rat) : Bool :=
  if a.2 = b.2 then decide (b.1.importance ≤ a.1.importance) else decide (b.2 < a.2)

/-- Sort for ORDER BY score DESC on rows. -/
def byScoreDesc (a b : SearchRow) : Bool := decide (b.score ≤ a.score)

/-- First-occurrence deduplication of rows, modelling RETURN DISTINCT. -/
def dedupRowsAux : List SearchRow → List SearchRow → List SearchRow
  | _, [] => []
  | seen, x :: xs =>
    if seen.contains x then dedupRowsAux seen xs
    else x :: dedupRowsAux (x :: seen) xs

/-- Model of neo4j_search (lines 386-462): both index queries are issued
with the caller-supplied query string as the searchQuery parameter (the
source does not escape here); the fulltext block filters by the active
predicate and the optional filters, sorts by score then importance and
takes the limit; the entity block joins mentioned memories, scores them
at 0.8 times the entity score, deduplicates rows, sorts and takes the
limit; entity rows whose id already appeared in the fulltext rows are
dropped.  The second component lists the queries issued to the engine;
with the driver down nothing is returned or issued. -/
def neo4j_search (env : SearchEnv) (now : Int) (g : Graph) (query : String)
    (limit : Nat) (project mem_type : Option String) :
    List SearchRow × List String :=
  if env.neo4jUp then
    let ftHits := (env.memFulltext query).filter
      (fun p => matchesFilters now project mem_type p.1)
    let ftRows := ((sortBy byScoreImpDesc ftHits).take limit).map (fun p =>
      { id := p.1.id, content := p.1.content, summary := p.1.summary,
        type := p.1.type, importance := p.1.importance,
        confidence := p.1.confidence, project := p.1.project,
        created := p.1.created, score := p.2, source := "neo4j-fulltext" })
    let entPairs := (env.entFulltext query).flatMap (fun eh =>
      (g.memories.filter (fun m => g.mentions.contains (m.id, eh.1) &&
          matchesFilters now project mem_type m)).map (fun m => (m, eh.2 * 8 / 10)))
    let entRows := (sortBy byScoreDesc (dedupRowsAux [] (entPairs.map (fun p =>
      ({ id := p.1.id, content := p.1.content, summary := p.1.summary,
         type := p.1.type, importance := p.1.importance, confidence := none,
         project := p.1.project, created := p.1.created, score := p.2,
         source := "neo4j-entity" } : SearchRow))))).take limit
    let seen := ftRows.map (fun r => r.id)
    (ftRows ++ entRows.filter (fun r => !seen.contains r.id), [query, query])
  else ([], [])

/-- A row of cmd_summarize (its RETURN clause carries no project). -/
structure SumRow where
  id : String
  content : Option String
  summary : Option String
  type : String
  importance : Int
  confidence : Option Rat
  created : Int
deriving Repr, DecidableEq

/-- Row built from a graph node for cmd_summarize. -/
def toSumRow (m : GMem) : SumRow :=
  { id := m.id, content := m.content, summary := m.summary, type := m.type,
    importance := m.importance, confidence := m.confidence, created := m.created }

/-- Sort for ORDER BY score DESC on node-score pairs. -/
def byScoreDescPair (a b : GMem × Rat) : Bool := decide (b.2 ≤ a.2)

/-- Sort for ORDER BY importance DESC on nodes. -/
def byImpDesc (a b : GMem) : Bool := decide (b.importance ≤ a.importance)

/-- Append a row to its type group, creating the group on first use. -/
def addToGroup (gs : List (String × List SumRow)) (key : String) (r : SumRow) :
    List (String × List SumRow) :=
  if gs.any (fun p => p.1 == key) then
    gs.map (fun p => if p.1 == key then (p.1, p.2 ++ [r]) else p)
  else gs ++ [(key, [r])]

/-- Grouping of rows by type in encounter order (lines 1471-1479). -/
def groupByType (rows : List SumRow) : List (String × List SumRow) :=
  rows.foldl (fun gs r => addToGroup gs r.type r) []

/-- The two result shapes of cmd_summarize. -/
inductive SummarizeResult where
  | error (msg : String)
  | groups (gs : List (String × List SumRow)) (totalCount : Nat)
deriving Repr, DecidableEq

/-- Model of cmd_summarize (lines 1425-1483): with a truthy topic the
Lucene-escaped topic is issued to the fulltext index (unless blank
after escaping, in which case the empty grouping is returned with no
engine call); otherwise all active memories are listed by importance.
Rows are grouped by type.  The second component lists the queries
issued to the fulltext engine. -/
def cmd_summarize (env : SearchEnv) (now : Int) (g : Graph)
    (topic : Option String) (project : Option String) (limit : Nat) :
    SummarizeResult × List String :=
  if env.neo4jUp then
    let allBranch : SummarizeResult × List String :=
      let rows := (((sortBy byImpDesc (g.memories.filter (fun m =>
          activeB now m && (project.isNone || m.project == project)))).take
            limit)).map toSumRow
      (.groups (groupByType rows) rows.length, [])
    match topic with
    | some t =>
      if t = "" then allBranch
      else
        let safe_topic := luceneEscape t
        if pyStrip safe_topic = "" then (.groups [] 0, [])
        else
          let hits := (env.memFulltext safe_topic).filter (fun p =>
            activeB now p.1 && (project.isNone || p.1.project == project))
          let rows := ((sortBy byScoreDescPair hits).take limit).map
            (fun p => toSumRow p.1)
          (.groups (groupByType rows) rows.length, [safe_topic])
    | none => allBranch
  else (.error "Neo4j unavailable", [])

/-! ### Concrete fixtures used by witnesses and counterexamples -/

/-- An empty graph. -/
def emptyGraph : Graph :=
  { memories := [], entityNodes := [], tagNodes := [], projectNodes := [],
    sessionNodes := [], mentions := [], tagged := [], belongsTo := [],
    recordedIn := [], supersedesE := [] }

/-- The default state record of load_state (lines 227-232). -/
def state0 : EvaState :=
  { wal := { pending := [], lastFlush := none },
    session := { id := none, startedAt := none, project := none, branch := none },
    queue := { pendingCount := 0, consecutiveFailures := 0,
               lastDrainAttempt := none, lastSuccess := none },
    stats := { totalMemories := 0, totalRecalls := 0, totalSearches := 0,
               lastMemoryAt := none } }

/-- A concrete memory record. -/
def memA : Memory :=
  { id := "a", content := "ca", summary := "sa", type := "note", importance := 5,
    confidence := 1, decayDays := none, supersedes := none, project := none,
    tags := [], entities := ["e1"], created := 1, updated := 1, sessionId := none,
    source := "agent", sourceChannel := none, sourceMessageId := none }

/-- A second concrete memory record. -/
def memB : Memory := { memA with id := "b" }

/-- An active low-importance graph node created one day before day 1000. -/
def g0mem : GMem :=
  { id := "m1", content := some "old content", summary := some "old summary",
    type := "note", importance := 1, project := none, created := 999,
    updated := none, sessionId := none, source := some "agent",
    confidence := none, decayDays := none, sourceChannel := none,
    sourceMessageId := none, forgotten := none, forgottenAt := none,
    deleteReason := none }

/-! ### C10: the frame of wal_flush -/

/-- C10: for every state and memory id, wal_flush removes exactly the
WAL pending entries whose id equals the given id, keeping the other
entries in their relative order (the result is a sublist of the input
containing every entry with a different id and none with the given id),
sets wal.lastFlush, and leaves the session, queue and stats portions of
the state unchanged. -/
theorem wal_flush_frame (now : Int) (memory_id : String) (state : EvaState) :
    List.Sublist (wal_flush now memory_id state).wal.pending state.wal.pending ∧
    (∀ m ∈ (wal_flush now memory_id state).wal.pending, m.id ≠ memory_id) ∧
    (∀ m ∈ state.wal.pending, m.id ≠ memory_id →
      m ∈ (wal_flush now memory_id state).wal.pending) ∧
    (wal_flush now memory_id state).wal.lastFlush = some now ∧
    (wal_flush now memory_id state).session = state.session ∧
    (wal_flush now memory_id state).queue = state.queue ∧
    (wal_flush now memory_id state).stats = state.stats := by
  refine ⟨List.filter_sublist _, ?_, ?_, rfl, rfl, rfl, rfl⟩
  · intro m hm
    have h := List.of_mem_filter hm
    simpa using h
  · intro m hm hne
    refine List.mem_filter.mpr ⟨hm, ?_⟩
    simpa using hne

/-- A state with three pending WAL entries, two of them for id a. -/
def c10state : EvaState :=
  { state0 with wal := { pending := [memA, memB, memA], lastFlush := none } }

/-- Witness for C10 at a concrete state. -/
theorem wal_flush_frame_witness :
    (wal_flush 5 "a" c10state).wal.pending = [memB] ∧
    (∀ m ∈ (wal_flush 5 "a" c10state).wal.pending, m.id ≠ "a") ∧
    (wal_flush 5 "a" c10state).stats = c10state.stats :=
  ⟨by decide, (wal_flush_frame 5 "a" c10state).2.1, (wal_flush_frame 5 "a" c10state).2.2.2.2.2.2⟩

/-! ### C8: the drain backoff gate -/

/-- C8: with a non-empty queue and consecutiveFailures at least 10,
drain_queue returns processed 0, remaining the number of queued
records, and the skipped-max-failures status, leaves the state and the
queue file untouched, and performs no health check, no embedding call
and no vector write. -/
theorem drain_backoff_gate (env : DrainEnv) (raw : List QLine) (state : EvaState)
    (hne : raw.filter (fun l => !isBlank l) ≠ [])
    (hfail : MAX_QUEUE_FAILURES ≤ state.queue.consecutiveFailures) :
    drain_queue env (some raw) state =
      (some { processed := 0, remaining := (raw.filter (fun l => !isBlank l)).length,
              status := .skippedMaxFailures }, some raw, state,
       { healthChecked := false, embedCalls := 0, storeCalls := 0 }) := by
  have hni : (raw.filter (fun l => !isBlank l)).isEmpty = false := by
    simpa [List.isEmpty_iff] using hne
  simp [drain_queue, hni, hfail]

/-- Environment of an offline drain call. -/
def denvOffline : DrainEnv :=
  { now := 7, healthOk := false, embedOf := fun _ => none,
    storeOk := fun _ _ => false }

/-- A queue file with one record. -/
def qfile1 : List QLine :=
  [QLine.record (some "a") (some "ca") (.mapping [])]

/-- A state with ten consecutive drain failures. -/
def c8state : EvaState :=
  { state0 with queue := { state0.queue with consecutiveFailures := 10 } }

/-- Witness for C8 at a concrete state. -/
theorem drain_backoff_gate_witness :
    qfile1.filter (fun l => !isBlank l) ≠ [] ∧
    MAX_QUEUE_FAILURES ≤ c8state.queue.consecutiveFailures ∧
    (drain_queue denvOffline (some qfile1) c8state).1 =
      some { processed := 0, remaining := 1,
             status := DrainStatus.skippedMaxFailures } :=
  ⟨by decide, by decide, by
    rw [drain_backoff_gate denvOffline qfile1 c8state (by decide) (by decide)]
    decide⟩

/-! ### C7: the vector-offline drain outcome -/

/-- C7: with a non-empty queue, fewer than 10 consecutive failures and a
failing health check, drain_queue increments consecutiveFailures,
stamps lastDrainAttempt, leaves the rest of the state and the file
untouched, and returns processed 0, remaining the number of queued
records, and the offline status (the spec calls it vector-offline; the
source renders it chromadb-offline). -/
theorem drain_vector_offline (env : DrainEnv) (raw : List QLine) (state : EvaState)
    (hne : raw.filter (fun l => !isBlank l) ≠ [])
    (hfail : state.queue.consecutiveFailures < MAX_QUEUE_FAILURES)
    (hhc : env.healthOk = false) :
    drain_queue env (some raw) state =
      (some { processed := 0, remaining := (raw.filter (fun l => !isBlank l)).length,
              status := .chromadbOffline }, some raw,
       { state with queue :=
           { state.queue with
             consecutiveFailures := state.queue.consecutiveFailures + 1,
             lastDrainAttempt := some env.now } },
       { healthChecked := true, embedCalls := 0, storeCalls := 0 }) := by
  have hni : (raw.filter (fun l => !isBlank l)).isEmpty = false := by
    simpa [List.isEmpty_iff] using hne
  have hlt : ¬ MAX_QUEUE_FAILURES ≤ state.queue.consecutiveFailures :=
    not_le.mpr hfail
  simp [drain_queue, hni, hlt, hhc]

/-- Witness for C7 at a concrete state. -/
theorem drain_vector_offline_witness :
    qfile1.filter (fun l => !isBlank l) ≠ [] ∧
    state0.queue.consecutiveFailures < MAX_QUEUE_FAILURES ∧
    denvOffline.healthOk = false ∧
    (drain_queue denvOffline (some qfile1) state0).2.2.1.queue.consecutiveFailures = 1 ∧
    (drain_queue denvOffline (some qfile1) state0).1 =
      some { processed := 0, remaining := 1,
             status := DrainStatus.chromadbOffline } :=
  ⟨by decide, by decide, by decide, by
    rw [drain_vector_offline denvOffline qfile1 state0 (by decide) (by decide) (by decide)]
    decide, by
    rw [drain_vector_offline denvOffline qfile1 state0 (by decide) (by decide) (by decide)]
    decide⟩

/-! ### C2: maintenance pruning ignores maxAgeDays (code bug) -/

/-- C2: cmd_maintain with maxAgeDays 90 and minImportance 3 prunes an
active memory of importance 1 created one day before now, although the
claim requires memories created within the last maxAgeDays days to be
left unchanged: the source computes the cutoff as now (line 1578) and
never subtracts max_age_days, so every active low-importance memory
created before now is soft-deleted. -/
theorem maintain_prunes_recent_memory :
    (cmd_maintain 1000 true 90 3 { emptyGraph with memories := [g0mem] }).1.1 = 1 ∧
    ((cmd_maintain 1000 true 90 3 { emptyGraph with memories := [g0mem] }).2.memories.map
      (fun m => (m.forgotten, m.content, m.deleteReason))) =
      [(some true, none, some "maintenance-pruned")] := by
  decide

/-! ### C4: the forgotten-record invariant -/

/-- Invariant 2 of the spec: a forgotten memory has no content and no
summary and carries a forgottenAt stamp. -/
def graphInvariant (g : Graph) : Prop :=
  ∀ m ∈ g.memories, m.forgotten = some true →
    (m.content = none ∧ m.summary = none ∧ m.forgottenAt ≠ none)

instance (g : Graph) : Decidable (graphInvariant g) := by
  unfold graphInvariant
  infer_instance

/-- A memory superseding the existing node m1. -/
def c4new : Memory := { memA with id := "new1", supersedes := some "m1" }

/-- C4 counterexample: upserting a memory whose supersedes field names
an existing node sets forgotten on the predecessor but leaves its
content and summary in place and stamps no forgottenAt, so the
invariant fails after the operation although it held before. -/
theorem supersede_breaks_invariant :
    graphInvariant { emptyGraph with memories := [g0mem] } ∧
    ¬ graphInvariant
      (neo4j_store_apply c4new { emptyGraph with memories := [g0mem] }) ∧
    ((neo4j_store_apply c4new { emptyGraph with memories := [g0mem] }).memories.map
      (fun m => (m.id, m.forgotten, m.content == none, m.forgottenAt))) =
      [("m1", some true, false, none), ("new1", none, false, none)] := by
  refine ⟨by decide, ?_, by decide⟩
  intro hinv
  have h := hinv ((neo4j_store_apply c4new
    { emptyGraph with memories := [g0mem] }).memories.head (by decide))
  revert h
  decide

/-- C4 amended: the explicit forget operation and maintenance pruning do
erase content and summary and stamp forgottenAt, so they preserve the
invariant; only the supersede marking inside the upsert violates it. -/
theorem forget_ops_preserve_invariant (now : Int) (id0 : String)
    (reason : Option String) (neo4jUp : Bool) (maxAgeDays minImportance : Int)
    (g : Graph) (hg : graphInvariant g) :
    graphInvariant (neo4j_forget_with_reason_apply now id0 reason g) ∧
    graphInvariant (cmd_maintain now neo4jUp maxAgeDays minImportance g).2 := by
  constructor
  · intro m hm hf
    unfold neo4j_forget_with_reason_apply at hm
    simp only [List.mem_map] at hm
    obtain ⟨m0, hm0, heq⟩ := hm
    by_cases hid : (m0.id == id0) = true
    · rw [if_pos hid] at heq
      subst heq
      exact ⟨rfl, rfl, by simp⟩
    · rw [if_neg hid] at heq
      subst heq
      exact hg m0 hm0 hf
  · unfold cmd_maintain
    by_cases hup : neo4jUp = true
    · rw [if_pos hup]
      intro m hm hf
      simp only [List.mem_map] at hm
      obtain ⟨m0, hm0, heq⟩ := hm
      by_cases hp : (decide (m0.importance < minImportance) &&
          decide (m0.created < now) && activeB now m0) = true
      · rw [if_pos hp] at heq
        subst heq
        exact ⟨rfl, rfl, by simp⟩
      · rw [if_neg hp] at heq
        subst heq
        exact hg m0 hm0 hf
    · rw [if_neg hup]
      intro m hm hf
      exact hg m hm hf

/-- Witness for the amended C4 at a concrete graph. -/
theorem forget_ops_preserve_invariant_witness :
    graphInvariant { emptyGraph with memories := [g0mem] } ∧
    graphInvariant
      (neo4j_forget_with_reason_apply 1000 "m1" (some "done")
        { emptyGraph with memories := [g0mem] }) :=
  ⟨by decide,
   (forget_ops_preserve_invariant 1000 "m1" (some "done") true 90 3
     { emptyGraph with memories := [g0mem] } (by decide)).1⟩

/-! ### C6: drain retention, counters, and the TypeError abort -/

/-- Retention predicate stated from the corrected claim: a record with a
content key is kept exactly when its embedding came back falsy (the
loop continues before id or metadata are touched) or when the
embedding succeeded and the store call for its id and content failed;
unparseable lines, records without a content key, and records whose id
key is missing when the store call would be reached are dropped. -/
def keptLineSpec (env : DrainEnv) : QLine → Bool
  | .record (some i) (some c) (.mapping _) =>
      !truthyEmb (env.embedOf c) || !env.storeOk i c
  | .record (some _) (some c) (.notMapping _) => !truthyEmb (env.embedOf c)
  | .record none (some c) _ => !truthyEmb (env.embedOf c)
  | _ => false

/-- Processing predicate stated from the corrected claim: a record
counts as processed exactly when it has an id, a content and a mapping
metadata, its embedding is truthy and its store call succeeded. -/
def processedLineSpec (env : DrainEnv) : QLine → Bool
  | .record (some i) (some c) (.mapping _) =>
      truthyEmb (env.embedOf c) && env.storeOk i c
  | _ => false

/-- Abort predicate stated from the corrected claim: a line that parses
as JSON but is not an object raises at the content subscript, and a
record with an id, a content and a non-mapping metadata raises at the
metadata splat once its embedding is truthy. -/
def raisesLineSpec (env : DrainEnv) : QLine → Bool
  | .nonObject _ => true
  | .record (some _) (some c) (.notMapping _) => truthyEmb (env.embedOf c)
  | _ => false

/-- Outcome of one loop iteration as described by the corrected claim. -/
def stepSpec (env : DrainEnv) (l : QLine) : StepOutcome :=
  if raisesLineSpec env l then .raise
  else if processedLineSpec env l then .stored
  else if keptLineSpec env l then .keep
  else .drop

theorem drainLine_outcome (env : DrainEnv) (l : QLine) :
    (drainLine env l).1 = stepSpec env l := by
  cases l with
  | blank => rfl
  | badJson r => rfl
  | nonObject r => rfl
  | record id content meta =>
    cases content with
    | none =>
      cases id with
      | none => cases meta <;> rfl
      | some i => cases meta <;> rfl
    | some c =>
      by_cases ht : truthyEmb (env.embedOf c) = true
      · cases id with
        | none =>
          cases meta <;>
            simp [drainLine, stepSpec, raisesLineSpec, processedLineSpec,
              keptLineSpec, ht]
        | some i =>
          cases meta with
          | mapping kvs =>
            by_cases hs : env.storeOk i c = true <;>
              simp [drainLine, stepSpec, raisesLineSpec, processedLineSpec,
                keptLineSpec, ht, hs]
          | notMapping r =>
            simp [drainLine, stepSpec, raisesLineSpec, processedLineSpec,
              keptLineSpec, ht]
      · cases id with
        | none =>
          cases meta <;>
            simp [drainLine, stepSpec, raisesLineSpec, processedLineSpec,
              keptLineSpec, ht]
        | some i =>
          cases meta <;>
            simp [drainLine, stepSpec, raisesLineSpec, processedLineSpec,
              keptLineSpec, ht]

theorem processed_not_kept (env : DrainEnv) (l : QLine)
    (h : processedLineSpec env l = true) : keptLineSpec env l = false := by
  cases l with
  | blank => simp [processedLineSpec] at h
  | badJson r => simp [processedLineSpec] at h
  | nonObject r => simp [processedLineSpec] at h
  | record id content meta =>
    cases id with
    | none => simp [processedLineSpec] at h
    | some i =>
      cases content with
      | none => simp [processedLineSpec] at h
      | some c =>
        cases meta with
        | notMapping r => simp [processedLineSpec] at h
        | mapping kvs =>
          simp only [processedLineSpec, Bool.and_eq_true] at h
          simp [keptLineSpec, h.1, h.2]

theorem drainLoop_spec (env : DrainEnv) : ∀ ls : List QLine,
    (drainLoop env ls).1 =
      if ls.all (fun l => !raisesLineSpec env l) then
        some (ls.countP (processedLineSpec env), ls.filter (keptLineSpec env))
      else none := by
  intro ls
  induction ls with
  | nil => simp [drainLoop]
  | cons l rest ih =>
    by_cases hr : raisesLineSpec env l = true
    · have hst : stepSpec env l = StepOutcome.raise := by simp [stepSpec, hr]
      simp [drainLoop, drainLine_outcome, hst, hr]
    · have hr2 : raisesLineSpec env l = false := by simpa using hr
      by_cases hp : processedLineSpec env l = true
      · have hk := processed_not_kept env l hp
        have hst : stepSpec env l = StepOutcome.stored := by
          simp [stepSpec, hr2, hp]
        by_cases ha : rest.all (fun x => !raisesLineSpec env x) = true
        · simp [drainLoop, drainLine_outcome, hst, hr2, hp, hk, ha, ih,
            List.countP_cons, List.filter_cons, Nat.add_comm]
        · simp [drainLoop, drainLine_outcome, hst, hr2, ha, ih]
      · have hp2 : processedLineSpec env l = false := by simpa using hp
        by_cases hkk : keptLineSpec env l = true
        · have hst : stepSpec env l = StepOutcome.keep := by
            simp [stepSpec, hr2, hp2, hkk]
          by_cases ha : rest.all (fun x => !raisesLineSpec env x) = true
          · simp [drainLoop, drainLine_outcome, hst, hr2, hp2, hkk, ha, ih,
              List.countP_cons, List.filter_cons]
          · simp [drainLoop, drainLine_outcome, hst, hr2, ha, ih]
        · have hkk2 : keptLineSpec env l = false := by simpa using hkk
          have hst : stepSpec env l = StepOutcome.drop := by
            simp [stepSpec, hr2, hp2, hkk2]
          by_cases ha : rest.all (fun x => !raisesLineSpec env x) = true
          · simp [drainLoop, drainLine_outcome, hst, hr2, hp2, hkk2, ha, ih,
              List.countP_cons, List.filter_cons]
          · simp [drainLoop, drainLine_outcome, hst, hr2, ha, ih]

/-- Environment of a drain where embedding fails for one content, the
store fails for one id, and everything else succeeds. -/
def denvMixed : DrainEnv :=
  { now := 9, healthOk := true,
    embedOf := fun c => if c = "embedfails" then none else some [1],
    storeOk := fun i _ => i ≠ "storefails" }

/-- A queue beginning with a line that parses as the JSON number 5,
followed by a well-formed record. -/
def qfileAbort : List QLine :=
  [QLine.nonObject "5", QLine.record (some "ok1") (some "c1") (.mapping [])]

/-- A state with two consecutive drain failures. -/
def c6state : EvaState :=
  { state0 with queue := { state0.queue with consecutiveFailures := 2 } }

/-- C6 counterexample: a drain that reaches the per-record phase on a
queue whose first line parses as the JSON number 5 raises an uncaught
TypeError at the content subscript (only JSONDecodeError and KeyError
are caught at line 974) and aborts: the malformed line is not dropped,
the log is not rewritten, consecutiveFailures stays at 2 instead of
being reset, and no timestamps are stamped -- there is no result dict
at all, falsifying the claim that malformed records are dropped and
that the rewrite and counter reset always follow. -/
theorem drain_typeerror_aborts :
    qfileAbort.filter (fun l => !isBlank l) ≠ [] ∧
    c6state.queue.consecutiveFailures < MAX_QUEUE_FAILURES ∧
    denvMixed.healthOk = true ∧
    (drain_queue denvMixed (some qfileAbort) c6state).1 = none ∧
    (drain_queue denvMixed (some qfileAbort) c6state).2.1 = some qfileAbort ∧
    (drain_queue denvMixed (some qfileAbort) c6state).2.2.1 = c6state := by
  decide

/-- C6 amended: when a drain reaches the per-record phase (non-empty
queue, fewer than 10 consecutive failures, passing health check) and no
queued line raises the uncaught TypeError (no JSON-valid non-object
line, and no record whose non-mapping metadata is reached after a
truthy embedding), the log is rewritten to exactly the sub-sequence of
queued records retained by the per-record rules (every record whose
embedding was falsy or whose store call failed stays, in its original
file order, and unparseable or key-less records are dropped), the
processed count is the number of stored records, the status is ok,
remaining and pendingCount equal the number of retained records,
consecutiveFailures is reset to 0, and lastSuccess and lastDrainAttempt
are stamped, with wal, session and stats untouched; when some queued
line raises, the drain aborts with no result dict, no rewrite and no
state change. -/
theorem drain_retention_amended (env : DrainEnv) (raw : List QLine)
    (state : EvaState)
    (hne : raw.filter (fun l => !isBlank l) ≠ [])
    (hfail : state.queue.consecutiveFailures < MAX_QUEUE_FAILURES)
    (hhc : env.healthOk = true) :
    ((raw.filter (fun l => !isBlank l)).all (fun l => !raisesLineSpec env l) = true →
      (drain_queue env (some raw) state).2.1 =
        some ((raw.filter (fun l => !isBlank l)).filter (keptLineSpec env)) ∧
      (drain_queue env (some raw) state).1 =
        some { processed :=
                 (raw.filter (fun l => !isBlank l)).countP (processedLineSpec env),
               remaining :=
                 ((raw.filter (fun l => !isBlank l)).filter (keptLineSpec env)).length,
               status := .ok } ∧
      (drain_queue env (some raw) state).2.2.1.queue =
        { pendingCount :=
            (((raw.filter (fun l => !isBlank l)).filter (keptLineSpec env)).length : Int),
          consecutiveFailures := 0,
          lastDrainAttempt := some env.now,
          lastSuccess := some env.now } ∧
      (drain_queue env (some raw) state).2.2.1.wal = state.wal ∧
      (drain_queue env (some raw) state).2.2.1.session = state.session ∧
      (drain_queue env (some raw) state).2.2.1.stats = state.stats) ∧
    ((raw.filter (fun l => !isBlank l)).all (fun l => !raisesLineSpec env l) = false →
      (drain_queue env (some raw) state).1 = none ∧
      (drain_queue env (some raw) state).2.1 = some raw ∧
      (drain_queue env (some raw) state).2.2.1 = state) := by
  have hni : (raw.filter (fun l => !isBlank l)).isEmpty = false := by
    simpa [List.isEmpty_iff] using hne
  have hlt : ¬ MAX_QUEUE_FAILURES ≤ state.queue.consecutiveFailures :=
    not_le.mpr hfail
  constructor
  · intro hall
    simp only [drain_queue, hni, Bool.false_eq_true, if_false, hlt, hhc, if_true,
      drainLoop_spec, hall]
    refine ⟨?_, ?_, ?_, ?_, ?_, ?_⟩ <;> trivial
  · intro hnone
    simp only [drain_queue, hni, Bool.false_eq_true, if_false, hlt, hhc, if_true,
      drainLoop_spec, hnone]
    refine ⟨?_, ?_, ?_⟩ <;> trivial

/-- A queue with one processable record, one embed failure, one store
failure, one unparseable line and one record without content. -/
def qfileMixed : List QLine :=
  [QLine.record (some "ok1") (some "c1") (.mapping []),
   QLine.record (some "e1") (some "embedfails") (.mapping []),
   QLine.record (some "storefails") (some "c2") (.mapping []),
   QLine.badJson "oops",
   QLine.record none none (.mapping [])]

/-- Witness for the amended C6: the no-raise part at a concrete queue
with mixed outcomes, and the abort part at the aborting queue. -/
theorem drain_retention_amended_witness :
    qfileMixed.filter (fun l => !isBlank l) ≠ [] ∧
    state0.queue.consecutiveFailures < MAX_QUEUE_FAILURES ∧
    denvMixed.healthOk = true ∧
    (qfileMixed.filter (fun l => !isBlank l)).all
      (fun l => !raisesLineSpec denvMixed l) = true ∧
    (drain_queue denvMixed (some qfileMixed) state0).2.1 =
      some ((qfileMixed.filter (fun l => !isBlank l)).filter
        (keptLineSpec denvMixed)) ∧
    ((qfileAbort.filter (fun l => !isBlank l)).all
      (fun l => !raisesLineSpec denvMixed l) = false ∧
     (drain_queue denvMixed (some qfileAbort) c6state).1 = none) :=
  ⟨by decide, by decide, by decide, by decide,
   ((drain_retention_amended denvMixed qfileMixed state0 (by decide) (by decide)
      (by decide)).1 (by decide)).1,
   ⟨by decide,
    ((drain_retention_amended denvMixed qfileAbort c6state (by decide) (by decide)
      (by decide)).2 (by decide)).1⟩⟩

/-! ### C1: WAL closure of cmd_remember -/

theorem rememberRecord_id (env : RememberEnv) (args : RememberArgs)
    (sid : Option String) : (rememberRecord env args sid).id = env.freshId := by
  unfold rememberRecord normalizeMemory
  simp only []
  split <;> rfl

theorem markdown_store_fst (ok : Bool) (m : Memory) (log : List Memory) :
    (markdown_store ok m log).1 = ok := by
  cases ok <;> simp [markdown_store]

/-- C1: for every completed remember call not skipped as a duplicate,
the fresh id is absent from wal.pending after the call exactly when the
markdown write or the graph write succeeded; when both failed, the full
memory record stays in the WAL pending list, and in every case the call
returns a stored outcome reporting which layers succeeded. -/
theorem remember_wal_closure (env : RememberEnv) (args : RememberArgs) (w : World)
    (hc : args.content ≠ "")
    (hskip : (check_duplicates env.dup args.content (memoryType args)
      args.project).1.action ≠ DupAction.skip) :
    ((env.mdOk || (env.dup.neo4jUp && env.neoStoreOk)) = true ↔
      ∀ m ∈ (cmd_remember env args w).2.state.wal.pending, m.id ≠ env.freshId) ∧
    ((env.mdOk || (env.dup.neo4jUp && env.neoStoreOk)) = false →
      rememberRecord env args w.state.session.id ∈
        (cmd_remember env args w).2.state.wal.pending) ∧
    (∃ o, (cmd_remember env args w).1 = RememberResult.stored o ∧
      o.markdown = env.mdOk ∧ o.neo4j = (env.dup.neo4jUp && env.neoStoreOk) ∧
      o.id = env.freshId) := by
  unfold cmd_remember
  rw [if_neg hc]
  simp only []
  rw [if_neg hskip]
  simp only [markdown_store_fst]
  by_cases hok : (env.mdOk || (env.dup.neo4jUp && env.neoStoreOk)) = true
  · rw [if_pos hok]
    refine ⟨?_, ?_, ?_⟩
    · refine ⟨fun _ => ?_, fun _ => hok⟩
      intro m hm
      dsimp only [wal_flush, wal_write] at hm
      have h := List.of_mem_filter hm
      have h2 : m.id ≠ (rememberRecord env args w.state.session.id).id := by
        simpa using h
      rw [rememberRecord_id] at h2
      exact h2
    · intro hfalse
      rw [hok] at hfalse
      exact absurd hfalse (by simp)
    · exact ⟨_, rfl, rfl, rfl, rememberRecord_id env args w.state.session.id⟩
  · rw [if_neg hok]
    have hfalse : (env.mdOk || (env.dup.neo4jUp && env.neoStoreOk)) = false := by
      simpa using hok
    have hmem : rememberRecord env args w.state.session.id ∈
        (wal_write (rememberRecord env args w.state.session.id) w.state).wal.pending := by
      dsimp only [wal_write]
      simp
    refine ⟨?_, fun _ => hmem, ?_⟩
    · constructor
      · intro h
        exact absurd h (by rw [hfalse]; simp)
      · intro hall
        exfalso
        have := hall _ hmem
        rw [rememberRecord_id] at this
        exact this rfl
    · exact ⟨_, rfl, rfl, rfl, rememberRecord_id env args w.state.session.id⟩

/-- Environment for a remember call whose duplicate check allows and
whose write layers are driven by two booleans. -/
def dupAllowEnv : DupEnv :=
  { chromaUrl := false, chromaCollection := false, ollamaUrl := false,
    embedResult := none, chromaTop := none, neo4jUp := false,
    fulltextTop := fun _ => none }

/-- Remember environment with both durable layers failing. -/
def rememberEnvFail : RememberEnv :=
  { freshId := "fresh1", now := 100, dup := dupAllowEnv, mdOk := false,
    neoStoreOk := false, storeEmbed := none, chromaStoreOk := false }

/-- Arguments of a concrete remember call. -/
def rememberArgs0 : RememberArgs :=
  { content := "hello world", typeOpt := some "note",
    summaryOpt := some "s", entitiesOpt := some ["e1"] }

/-- An initial world. -/
def world0 : World :=
  { state := state0, graph := emptyGraph, mdLog := [], queueFile := none,
    vector := [] }

/-- Witness for C1: with markdown and graph both failing, the record is
still pending afterwards and the outcome reports both layers false. -/
theorem remember_wal_closure_witness :
    rememberArgs0.content ≠ "" ∧
    (check_duplicates rememberEnvFail.dup rememberArgs0.content
      (memoryType rememberArgs0) rememberArgs0.project).1.action ≠ DupAction.skip ∧
    ((rememberEnvFail.mdOk || (rememberEnvFail.dup.neo4jUp && rememberEnvFail.neoStoreOk)) = false →
      rememberRecord rememberEnvFail rememberArgs0 world0.state.session.id ∈
        (cmd_remember rememberEnvFail rememberArgs0 world0).2.state.wal.pending) :=
  ⟨by decide, by decide,
   (remember_wal_closure rememberEnvFail rememberArgs0 world0 (by decide) (by decide)).2.1⟩

/-! ### C3: the dedup skip path writes nothing -/

/-- C3: when the ChromaDB duplicate check finds an existing memory with
similarity above 0.92, cmd_remember returns early with the skipped
payload carrying the existing id and the similarity, and the world --
state (including WAL), graph, markdown log, queue file and vector
store -- is unchanged. -/
theorem remember_dedup_skip (env : RememberEnv) (args : RememberArgs) (w : World)
    (existingId : String) (dOpt : Option Rat)
    (hc : args.content ≠ "")
    (hcu : env.dup.chromaUrl = true) (hcc : env.dup.chromaCollection = true)
    (hou : env.dup.ollamaUrl = true)
    (hemb : truthyEmb env.dup.embedResult = true)
    (htop : env.dup.chromaTop = some (some (existingId, dOpt)))
    (hsim : (92 : Rat) / 100 < 1 / (1 + dOpt.getD 999)) :
    cmd_remember env args w =
      (RememberResult.skipped (some existingId) (some (1 / (1 + dOpt.getD 999))), w) := by
  have hcp : chromaPrimary env.dup = some
      { action := .skip, existingId := some existingId,
        similarity := some (1 / (1 + dOpt.getD 999)) } := by
    unfold chromaPrimary
    rw [hcu, hcc, hou]
    simp only [Bool.and_self, if_true, hemb, htop]
    rw [if_pos hsim]
  have hcd : check_duplicates env.dup args.content (memoryType args) args.project =
      ({ action := .skip, existingId := some existingId,
         similarity := some (1 / (1 + dOpt.getD 999)) }, []) := by
    unfold check_duplicates
    rw [hcp]
  unfold cmd_remember
  rw [if_neg hc]
  simp only []
  rw [hcd]
  simp

/-- Duplicate-check environment reporting a near-identical existing
memory at distance 1/100. -/
def dupSkipEnv : DupEnv :=
  { chromaUrl := true, chromaCollection := true, ollamaUrl := true,
    embedResult := some [1], chromaTop := some (some ("old1", some (1 / 100))),
    neo4jUp := true, fulltextTop := fun _ => none }

/-- Remember environment whose duplicate check reports a skip. -/
def rememberEnvSkip : RememberEnv :=
  { freshId := "fresh1", now := 100, dup := dupSkipEnv, mdOk := true,
    neoStoreOk := true, storeEmbed := some [1], chromaStoreOk := true }

/-- Witness for C3 at a concrete environment: similarity 100/101. -/
theorem remember_dedup_skip_witness :
    (92 : Rat) / 100 < 1 / (1 + ((some ((1 : Rat) / 100)).getD 999)) ∧
    cmd_remember rememberEnvSkip rememberArgs0 world0 =
      (RememberResult.skipped (some "old1")
        (some (1 / (1 + ((some ((1 : Rat) / 100)).getD 999)))), world0) :=
  ⟨by norm_num, remember_dedup_skip rememberEnvSkip rememberArgs0 world0 "old1"
    (some (1 / 100)) (by decide) rfl rfl rfl (by decide) rfl (by norm_num)⟩

/-! ### C5: fulltext query sanitization -/

theorem sanitizedL_luceneEscapeL (l : List Char) :
    sanitizedL (luceneEscapeL l) = true := by
  induction l with
  | nil => rfl
  | cons c rest ih =>
    show sanitizedL ((if isLuceneChar c then ['\\', c] else [c]) ++ luceneEscapeL rest) = true
    by_cases h : isLuceneChar c = true
    · rw [if_pos h]
      show sanitizedL ('\\' :: c :: luceneEscapeL rest) = true
      rw [sanitizedL.eq_def]
      dsimp only
      exact ih
    · rw [if_neg h]
      have hcne : ¬ c = '\\' := by
        intro heq
        rw [heq] at h
        exact h (by decide)
      show sanitizedL (c :: luceneEscapeL rest) = true
      rw [sanitizedL.eq_def]
      dsimp only
      rw [if_neg hcne]
      simp [h, ih]

theorem sanitized_luceneEscape (s : String) :
    sanitizedL (luceneEscape s).toList = true :=
  sanitizedL_luceneEscapeL s.toList

/-- A search environment with the driver up and empty indexes. -/
def searchEnv0 : SearchEnv :=
  { neo4jUp := true, memFulltext := fun _ => [], entFulltext := fun _ => [] }

/-- C5 counterexample: neo4j_search issues the raw caller query to both
fulltext indexes without escaping; on the query a+b the issued strings
equal the raw input, which is not sanitized and differs from its
escaped form. -/
theorem search_issues_unescaped_query :
    (neo4j_search searchEnv0 0 emptyGraph "a+b" 10 none none).2 = ["a+b", "a+b"] ∧
    sanitizedL "a+b".toList = false ∧
    luceneEscape "a+b" ≠ "a+b" := by
  refine ⟨by decide, by decide, by decide⟩

theorem check_duplicates_issued_sanitized (env : DupEnv) (content mem_type : String)
    (project : Option String) :
    ∀ q ∈ (check_duplicates env content mem_type project).2,
      sanitizedL q.toList = true := by
  intro q hq
  unfold check_duplicates at hq
  cases hcp : chromaPrimary env with
  | some r => rw [hcp] at hq; simp at hq
  | none =>
    rw [hcp] at hq
    by_cases hup : env.neo4jUp = true
    · rw [if_pos hup] at hq
      simp only [] at hq
      by_cases hblank :
          pyStrip (luceneEscape (String.mk (content.toList.take 200))) = ""
      · rw [if_pos hblank] at hq
        simp at hq
      · rw [if_neg hblank] at hq
        cases hft : env.fulltextTop
            (luceneEscape (String.mk (content.toList.take 200))) with
        | none =>
          rw [hft] at hq
          simp at hq
          subst hq
          exact sanitized_luceneEscape _
        | some p =>
          obtain ⟨rid, score⟩ := p
          rw [hft] at hq
          dsimp only at hq
          by_cases h8 : (8 : Rat) < score
          · rw [if_pos h8] at hq
            simp at hq
            subst hq
            exact sanitized_luceneEscape _
          · rw [if_neg h8] at hq
            by_cases h4 : (4 : Rat) < score
            · rw [if_pos h4] at hq
              simp at hq
              subst hq
              exact sanitized_luceneEscape _
            · rw [if_neg h4] at hq
              simp at hq
              subst hq
              exact sanitized_luceneEscape _
    · rw [if_neg hup] at hq
      simp at hq

theorem check_duplicates_blank_allows (env : DupEnv) (content mem_type : String)
    (project : Option String)
    (hcp : chromaPrimary env = none) (hup : env.neo4jUp = true)
    (hblank : pyStrip (luceneEscape (String.mk (content.toList.take 200))) = "") :
    check_duplicates env content mem_type project =
      ({ action := .allow, existingId := none, similarity := none }, []) := by
  unfold check_duplicates
  rw [hcp, if_pos hup]
  simp only []
  rw [if_pos hblank]

theorem cmd_summarize_issued_sanitized (env : SearchEnv) (now : Int) (g : Graph)
    (topic project : Option String) (limit : Nat) :
    ∀ q ∈ (cmd_summarize env now g topic project limit).2,
      sanitizedL q.toList = true := by
  intro q hq
  unfold cmd_summarize at hq
  by_cases hup : env.neo4jUp = true
  · rw [if_pos hup] at hq
    simp only [] at hq
    cases topic with
    | none => simp at hq
    | some t =>
      dsimp only at hq
      by_cases ht : t = ""
      · rw [if_pos ht] at hq
        simp at hq
      · rw [if_neg ht] at hq
        by_cases hblank : pyStrip (luceneEscape t) = ""
        · rw [if_pos hblank] at hq
          simp at hq
        · rw [if_neg hblank] at hq
          simp at hq
          subst hq
          exact sanitized_luceneEscape _
  · rw [if_neg hup] at hq
    simp at hq

theorem cmd_summarize_blank_empty (env : SearchEnv) (now : Int) (g : Graph)
    (t : String) (project : Option String) (limit : Nat)
    (hup : env.neo4jUp = true) (ht : t ≠ "")
    (hblank : pyStrip (luceneEscape t) = "") :
    cmd_summarize env now g (some t) project limit =
      (.groups [] 0, []) := by
  unfold cmd_summarize
  rw [if_pos hup]
  simp only []
  rw [if_neg ht, if_pos hblank]

/-- C5 amended: the duplicate-check fallback and the summarize topic
surface issue only Lucene-escaped (sanitized) queries to the fulltext
engine and return without an engine call when the query is blank after
escaping; neo4j_search however (see the counterexample) passes the raw
caller query to the engine unescaped. -/
theorem fulltext_sanitization_amended (env : DupEnv) (content mem_type : String)
    (project : Option String) (senv : SearchEnv) (now : Int) (g : Graph)
    (topic : Option String) (projectS : Option String) (limit : Nat)
    (t : String) :
    (∀ q ∈ (check_duplicates env content mem_type project).2,
      sanitizedL q.toList = true) ∧
    (chromaPrimary env = none → env.neo4jUp = true →
      pyStrip (luceneEscape (String.mk (content.toList.take 200))) = "" →
      check_duplicates env content mem_type project =
        ({ action := .allow, existingId := none, similarity := none }, [])) ∧
    (∀ q ∈ (cmd_summarize senv now g topic projectS limit).2,
      sanitizedL q.toList = true) ∧
    (senv.neo4jUp = true → t ≠ "" → pyStrip (luceneEscape t) = "" →
      cmd_summarize senv now g (some t) projectS limit = (.groups [] 0, [])) :=
  ⟨check_duplicates_issued_sanitized env content mem_type project,
   fun hcp hup hblank =>
     check_duplicates_blank_allows env content mem_type project hcp hup hblank,
   cmd_summarize_issued_sanitized senv now g topic projectS limit,
   fun hup ht hblank =>
     cmd_summarize_blank_empty senv now g t projectS limit hup ht hblank⟩

/-- Duplicate-check environment with ChromaDB unconfigured and the
driver up, so that the fallback path runs. -/
def dupAllowEnv2 : DupEnv :=
  { chromaUrl := false, chromaCollection := false, ollamaUrl := false,
    embedResult := none, chromaTop := none, neo4jUp := true,
    fulltextTop := fun _ => none }

/-- Witness for the amended C5 at concrete inputs: a duplicate check for
content consisting only of metacharacters and whitespace returns allow
with no engine call, and a summarize call on such a topic returns the
empty grouping with no engine call. -/
theorem fulltext_sanitization_amended_witness :
    chromaPrimary dupAllowEnv2 = none ∧
    dupAllowEnv2.neo4jUp = true ∧
    pyStrip (luceneEscape (String.mk ((" ".toList.take 200)))) = "" ∧
    check_duplicates dupAllowEnv2 " " "note" none =
      ({ action := .allow, existingId := none, similarity := none }, []) ∧
    cmd_summarize searchEnv0 0 emptyGraph (some " ") none 10 =
      (.groups [] 0, []) :=
  ⟨by decide, by decide, by decide,
   (fulltext_sanitization_amended dupAllowEnv2 " " "note" none searchEnv0 0
     emptyGraph none none 10 " ").2.1 (by decide) (by decide) (by decide),
   (fulltext_sanitization_amended dupAllowEnv2 " " "note" none searchEnv0 0
     emptyGraph none none 10 " ").2.2.2 (by decide) (by decide) (by decide)⟩

/-! ### C9: properties of extract_entities -/

theorem char_ofNat_toNat {n : Nat} (h : n.isValidChar) : (Char.ofNat n).toNat = n := by
  unfold Char.ofNat
  rw [dif_pos h]
  rfl

theorem toLowerCh_idem (c : Char) : toLowerCh (toLowerCh c) = toLowerCh c := by
  unfold toLowerCh
  by_cases h : 65 ≤ c.toNat ∧ c.toNat ≤ 90
  · rw [if_pos h]
    have hv : (c.toNat + 32).isValidChar := Or.inl (by omega)
    have hn : ¬(65 ≤ (Char.ofNat (c.toNat + 32)).toNat ∧
        (Char.ofNat (c.toNat + 32)).toNat ≤ 90) := by
      rw [char_ofNat_toNat hv]
      omega
    rw [if_neg hn]
  · rw [if_neg h, if_neg h]

/-- A character list on which lowering is the identity. -/
def lowerInvL (l : List Char) : Prop := ∀ c ∈ l, toLowerCh c = c

/-- A string that is already lowercased: lowering each character again
changes nothing. -/
def lowerInvS (s : String) : Prop := ∀ c ∈ s.toList, toLowerCh c = c

theorem lowerInvL_lowerL (l : List Char) : lowerInvL (lowerL l) := by
  intro c hc
  simp only [lowerL, List.mem_map] at hc
  obtain ⟨a, -, rfl⟩ := hc
  exact toLowerCh_idem a

theorem lowerInvL_subset {l1 l2 : List Char} (hsub : ∀ c ∈ l2, c ∈ l1)
    (h : lowerInvL l1) : lowerInvL l2 :=
  fun c hc => h c (hsub c hc)

theorem mem_pyStripL {c : Char} {l : List Char} (h : c ∈ pyStripL l) : c ∈ l := by
  unfold pyStripL at h
  rw [List.mem_reverse] at h
  have h1 := (List.dropWhile_sublist _).subset h
  rw [List.mem_reverse] at h1
  exact (List.dropWhile_sublist _).subset h1

theorem mem_beforeLastDot {c : Char} {l : List Char} (h : c ∈ beforeLastDot l) :
    c ∈ l := by
  unfold beforeLastDot at h
  rw [List.mem_reverse] at h
  have h1 := List.drop_subset _ _ h
  have h2 := (List.dropWhile_sublist _).subset h1
  rw [List.mem_reverse] at h2
  exact h2

theorem toLowerCh_fixed_lower {c : Char} (h : isLowerAZ c = true) :
    toLowerCh c = c := by
  unfold isLowerAZ at h
  simp only [Bool.and_eq_true, decide_eq_true_eq] at h
  unfold toLowerCh
  rw [if_neg]
  omega

theorem toLowerCh_fixed_space {c : Char} (h : isSpaceChar c = true) :
    toLowerCh c = c := by
  unfold isSpaceChar at h
  simp only [Bool.or_eq_true, decide_eq_true_eq] at h
  rcases h with ((((h | h) | h) | h) | h) | h <;> subst h <;> decide

theorem findWords_lower (l : List Char) : ∀ w ∈ findWords l, lowerInvL w := by
  intro w hw
  have h := (List.mem_filter.mp hw).2
  simp only [Bool.and_eq_true] at h
  intro c hc
  exact toLowerCh_fixed_lower (List.all_eq_true.mp h.1 c hc)

theorem bigramMatch_chars {l m r : List Char} (h : bigramMatch l = some (m, r)) :
    ∀ c ∈ m, isLowerAZ c = true ∨ isSpaceChar c = true := by
  unfold bigramMatch at h
  simp only [] at h
  split at h
  next => exact absurd h (by simp)
  next hc1 =>
    split at h
    next => exact absurd h (by simp)
    next hc2 =>
      split at h
      next => exact absurd h (by simp)
      next hc3 =>
        split at h
        next hc4 =>
          simp only [Option.some.injEq, Prod.mk.injEq] at h
          obtain ⟨hm, -⟩ := h
          subst hm
          intro c hc
          rcases List.mem_append.mp hc with h1 | h2
          · rcases List.mem_append.mp h1 with h3 | h4
            · exact Or.inl (List.mem_takeWhile_imp h3)
            · exact Or.inr (List.mem_takeWhile_imp h4)
          · exact Or.inl (List.mem_takeWhile_imp h2)
        next => exact absurd h (by simp)

theorem findBigramsAuxF_chars :
    ∀ (fuel : Nat) (pw : Bool) (l : List Char), ∀ b ∈ findBigramsAuxF fuel pw l,
      ∀ c ∈ b, isLowerAZ c = true ∨ isSpaceChar c = true := by
  intro fuel
  induction fuel with
  | zero => intro pw l b hb; simp [findBigramsAuxF] at hb
  | succ n ih =>
    intro pw l b hb
    cases l with
    | nil => simp [findBigramsAuxF] at hb
    | cons c0 rest =>
      simp only [findBigramsAuxF] at hb
      by_cases hpw : pw = true
      · rw [if_pos hpw] at hb
        exact ih _ _ b hb
      · rw [if_neg hpw] at hb
        cases hbm : bigramMatch (c0 :: rest) with
        | some p =>
          obtain ⟨m, r⟩ := p
          simp only [hbm] at hb
          rcases List.mem_cons.mp hb with hb1 | hb2
          · subst hb1
            exact bigramMatch_chars hbm
          · exact ih _ _ b hb2
        | none =>
          simp only [hbm] at hb
          exact ih _ _ b hb

theorem findBigrams_lower (l : List Char) : ∀ b ∈ findBigrams l, lowerInvL b := by
  intro b hb c hc
  rcases findBigramsAuxF_chars l.length false l b hb c hc with h | h
  · exact toLowerCh_fixed_lower h
  · exact toLowerCh_fixed_space h

theorem priorityEntities_lower (kvs : List (String × Json)) :
    ∀ e ∈ priorityEntities kvs, lowerInvL e := by
  intro e he
  unfold priorityEntities at he
  rcases List.mem_append.mp he with h | h
  · obtain ⟨k, -, hk⟩ := List.mem_flatMap.mp h
    cases hj : jlookup kvs k with
    | none => rw [hj] at hk; simp at hk
    | some v =>
      rw [hj] at hk
      cases v with
      | str vs =>
        dsimp only at hk
        by_cases hd : (pyStripL (lowerL vs.toList)).contains '.'
        · rw [if_pos hd] at hk
          rcases List.mem_cons.mp hk with h1 | h1
          · subst h1
            exact lowerInvL_subset (fun c hc => mem_pyStripL hc) (lowerInvL_lowerL _)
          · simp only [List.mem_singleton] at h1
            subst h1
            exact lowerInvL_subset
              (fun c hc => mem_pyStripL (mem_beforeLastDot hc))
              (lowerInvL_lowerL _)
        · rw [if_neg hd] at hk
          simp only [List.mem_singleton] at hk
          subst hk
          exact lowerInvL_subset (fun c hc => mem_pyStripL hc) (lowerInvL_lowerL _)
      | num n => simp at hk
      | bool b => simp at hk
      | null => simp at hk
      | arr xs => simp at hk
      | obj o => simp at hk
  · obtain ⟨k, -, hk⟩ := List.mem_flatMap.mp h
    cases hj : jlookup kvs k with
    | none => rw [hj] at hk; simp at hk
    | some v =>
      rw [hj] at hk
      cases v with
      | arr items =>
        dsimp only at hk
        obtain ⟨it, -, hit⟩ := List.mem_flatMap.mp hk
        cases it with
        | str its =>
          simp only [List.mem_singleton] at hit
          subst hit
          exact lowerInvL_subset (fun c hc => mem_pyStripL hc) (lowerInvL_lowerL _)
        | num n => simp at hit
        | bool b => simp at hit
        | null => simp at hit
        | arr xs => simp at hit
        | obj o => simp at hit
      | str vs => simp at hk
      | num n => simp at hk
      | bool b => simp at hk
      | null => simp at hk
      | obj o => simp at hk

theorem genericCandidates_lower (content : Content) :
    ∀ e ∈ genericCandidates content, lowerInvL e := by
  intro e he
  unfold genericCandidates at he
  rcases List.mem_append.mp he with h | hbg
  · rcases List.mem_append.mp h with h | hw
    · rcases List.mem_append.mp h with h | hcp
      · rcases List.mem_append.mp h with hh | hq
        · obtain ⟨a, -, rfl⟩ := List.mem_map.mp hh
          exact lowerInvL_lowerL _
        · obtain ⟨a, -, rfl⟩ := List.mem_map.mp hq
          exact lowerInvL_subset (fun c hc => mem_pyStripL hc) (lowerInvL_lowerL _)
      · have h1 := (List.mem_filter.mp hcp).1
        obtain ⟨a, -, rfl⟩ := List.mem_map.mp h1
        exact lowerInvL_lowerL _
    · exact findWords_lower _ e (List.mem_filter.mp hw).1
  · exact findBigrams_lower _ e (List.mem_filter.mp hbg).1

theorem mem_dedupSeen {x : List Char} :
    ∀ {seen l : List (List Char)}, x ∈ dedupSeen seen l → x ∈ l := by
  intro seen l
  induction l generalizing seen with
  | nil => intro h; simpa [dedupSeen] using h
  | cons a rest ih =>
    intro h
    simp only [dedupSeen] at h
    by_cases hc : seen.contains a = true
    · rw [if_pos hc] at h
      exact List.mem_cons_of_mem _ (ih h)
    · rw [if_neg hc] at h
      rcases List.mem_cons.mp h with h1 | h1
      · subst h1; exact List.mem_cons_self _ _
      · exact List.mem_cons_of_mem _ (ih h1)

theorem mem_combineLoop (b : Bool) :
    ∀ (es seen acc : List (List Char)) (x : List Char),
      x ∈ (combineLoop b es seen acc).2 → x ∈ acc ∨ x ∈ es := by
  intro es
  induction es with
  | nil =>
    intro seen acc x h
    exact Or.inl (by simpa [combineLoop] using h)
  | cons e rest ih =>
    intro seen acc x h
    simp only [combineLoop] at h
    by_cases hok : (if b then !e.isEmpty && !seen.contains e && decide (3 ≤ e.length)
        else !seen.contains e) = true
    · rw [if_pos hok] at h
      rcases ih _ _ x h with h1 | h2
      · rcases List.mem_append.mp h1 with h3 | h4
        · exact Or.inl h3
        · simp only [List.mem_singleton] at h4
          subst h4
          exact Or.inr (List.mem_cons_self _ _)
      · exact Or.inr (List.mem_cons_of_mem _ h2)
    · rw [if_neg hok] at h
      rcases ih _ _ x h with h1 | h2
      · exact Or.inl h1
      · exact Or.inr (List.mem_cons_of_mem _ h2)

theorem mem_extract_entities {content : Content} {e : String}
    (he : e ∈ extract_entities content) :
    ∃ lc, e = String.mk lc ∧
      (lc ∈ extractPriority content ∨ lc ∈ sortedGenerics content) := by
  unfold extract_entities at he
  simp only [] at he
  obtain ⟨lc, hlc, rfl⟩ := List.mem_map.mp he
  refine ⟨lc, rfl, ?_⟩
  have h1 := List.mem_of_mem_take hlc
  rcases mem_combineLoop false _ _ _ _ h1 with h2 | h2
  · rcases mem_combineLoop true _ _ _ _ h2 with h3 | h3
    · simp at h3
    · exact Or.inl h3
  · exact Or.inr h2

theorem mem_insertSorted {α : Type} {le : α → α → Bool} {x a : α} :
    ∀ {l : List α}, a ∈ insertSorted le x l → a = x ∨ a ∈ l := by
  intro l
  induction l with
  | nil => intro h; simpa [insertSorted] using h
  | cons y ys ih =>
    intro h
    simp only [insertSorted] at h
    by_cases hle : le x y = true
    · rw [if_pos hle] at h
      rcases List.mem_cons.mp h with h1 | h1
      · exact Or.inl h1
      · exact Or.inr h1
    · rw [if_neg hle] at h
      rcases List.mem_cons.mp h with h1 | h1
      · exact Or.inr (h1 ▸ List.mem_cons_self _ _)
      · rcases ih h1 with h2 | h2
        · exact Or.inl h2
        · exact Or.inr (List.mem_cons_of_mem _ h2)

theorem mem_sortBy {α : Type} {le : α → α → Bool} {a : α} :
    ∀ {l : List α}, a ∈ sortBy le l → a ∈ l := by
  intro l
  induction l with
  | nil => intro h; simpa [sortBy] using h
  | cons y ys ih =>
    intro h
    simp only [sortBy, List.foldr_cons] at h
    rcases mem_insertSorted h with h1 | h1
    · exact h1 ▸ List.mem_cons_self _ _
    · exact List.mem_cons_of_mem _ (ih h1)

theorem sortedGenerics_props (content : Content) :
    ∀ lc ∈ sortedGenerics content,
      lowerInvL lc ∧ isStop lc = false := by
  intro lc h
  unfold sortedGenerics at h
  have h0 := mem_sortBy h
  have h1 := List.mem_filter.mp h0
  have h2 := mem_dedupSeen h1.1
  have h3 := h1.2
  simp only [Bool.and_eq_true, Bool.not_eq_true'] at h3
  exact ⟨genericCandidates_lower content lc h2, h3.2⟩

theorem extract_entities_lower (content : Content) :
    ∀ e ∈ extract_entities content, lowerInvS e := by
  intro e he
  obtain ⟨lc, rfl, hmem⟩ := mem_extract_entities he
  have hl : lowerInvL lc := by
    rcases hmem with h | h
    · cases content with
      | plain s => simp [extractPriority] at h
      | struct kvs => exact priorityEntities_lower kvs lc h
    · exact (sortedGenerics_props content lc h).1
  intro c hc
  exact hl c hc

theorem extract_entities_length (content : Content) :
    (extract_entities content).length ≤ 15 := by
  unfold extract_entities
  simp only [List.length_map, List.length_take]
  omega

theorem extract_entities_plain_no_stop (s : String) :
    ∀ e ∈ extract_entities (Content.plain s), e ∉ STOP_WORDS := by
  intro e he hstop
  obtain ⟨lc, rfl, hmem⟩ := mem_extract_entities he
  rcases hmem with h | h
  · simp [extractPriority] at h
  · have hns := (sortedGenerics_props _ lc h).2
    have : isStop lc = true := by
      unfold isStop stopWordsL
      have hmm : lc ∈ List.map String.toList STOP_WORDS :=
        List.mem_map.mpr ⟨String.mk lc, hstop, rfl⟩
      exact List.elem_eq_true_of_mem hmm
    rw [this] at hns
    exact Bool.true_eq_false.mp hns

/-- C9 counterexample: on the structured input with topic key the, the
extractor returns the stop word the as its first entity: priority
entities from topic keys are lowercased but never stop-word filtered. -/
theorem extractor_emits_stop_word :
    extract_entities (Content.struct [("topic", Json.str "the")]) = ["the", "topic"] ∧
    "the" ∈ STOP_WORDS := by
  refine ⟨by decide, by decide⟩

/-- C9 amended: extract_entities is deterministic and always returns at
most 15 entries, every entry is lowercased, and for plain-text input no
entry is a stop word; entries drawn from the priority topic keys of a
structured input are not stop-word filtered (see the counterexample). -/
theorem extractor_amended :
    (∀ x : Content, extract_entities x = extract_entities x) ∧
    (∀ x : Content, (extract_entities x).length ≤ 15) ∧
    (∀ x : Content, ∀ e ∈ extract_entities x, lowerInvS e) ∧
    (∀ s : String, ∀ e ∈ extract_entities (Content.plain s), e ∉ STOP_WORDS) :=
  ⟨fun _ => rfl, extract_entities_length, extract_entities_lower,
   extract_entities_plain_no_stop⟩

/-- Witness for the amended C9 at a concrete input. -/
theorem extractor_amended_witness :
    "postgres" ∈ extract_entities
      (Content.plain "Decided to use Postgres over MySQL for ACID guarantees") ∧
    (extract_entities
      (Content.plain "Decided to use Postgres over MySQL for ACID guarantees")).length ≤ 15 ∧
    "postgres" ∉ STOP_WORDS :=
  ⟨by decide,
   extractor_amended.2.1 (Content.plain "Decided to use Postgres over MySQL for ACID guarantees"),
   fun hmem => by
     exact absurd
       (extractor_amended.2.2.2 "Decided to use Postgres over MySQL for ACID guarantees"
         "postgres" (by decide)) (fun hno => hno hmem)⟩

end EvaMemory
